import Mathlib

/-!
Shallow embedding of the batch conversion pipeline of `iconize_pro.py`
(`IconConversionWorker.run_conversion`, plus its helper
`_convert_svg_to_png_worker` and the `stop` protocol).

The pipeline is modelled as a pure state-passing function.  External
collaborators (Pillow raster decode, cairosvg rasterization, the Lanczos
resampler, and the PNG/ICO encoders) are modelled as an `Env` oracle: they
are code outside this repository, and the pipeline treats each call as an
opaque success/failure.  The filesystem is the list of output paths that
exist; a failed save writes nothing.  The asynchronous `stop()` request is
modelled by `Env.stopReq`: every read of `self._is_running` is numbered in
program order, and `stopReq n = true` means a stop request arrived before
the n-th read (the read then observes, and stores, `false` — exactly the
`self._is_running = self._is_running && not stop-pending` effect, since
`stop()` only ever writes `False` and `run_conversion` never writes the
flag).  Python's float progress percentage `int(((i+1)/num)*100)` is
modelled by truncating natural division `((i+1)*100)/num`.
-/

namespace IconizePro

/-- `PNG_ICON_SIZES` from the source (line 61). -/
def PNG_ICON_SIZES : List Nat := [16, 24, 32, 48, 64, 96, 128, 192, 256, 512]

/-- `ICO_ICON_SIZES` from the source (line 62). -/
def ICO_ICON_SIZES : List Nat := [16, 24, 32, 48, 64, 128, 256]

/-- The raster extensions recognised at line 193 of the source. -/
def rasterExtensions : List String := [".png", ".jpg", ".jpeg", ".bmp", ".tiff", ".webp"]

/-- An in-memory RGBA bitmap; only its dimensions are observable to the
pipeline's control flow (the `width > 0 and height > 0` check). -/
structure Bitmap where
  width : Nat
  height : Nat
deriving DecidableEq, Repr

/-- An input file, given by its stem (`os.path.splitext(basename)[0]`) and
its extension including the leading dot (`os.path.splitext(basename)[1]`). -/
structure InputFile where
  stem : String
  ext : String
deriving DecidableEq, Repr

/-- The `options` dictionary passed to the worker. -/
structure Options where
  do_png : Bool
  do_multi_ico : Bool
  do_single_ico : Bool
deriving DecidableEq, Repr

/-- Output paths the pipeline can write, relative to the base output folder:
`resized/{stem}_{size}.png`, `ico/{stem}.ico`, `ico/{stem}_{size}.ico`. -/
inductive OutPath
  | resizedPng (stem : String) (size : Nat)
  | packedIco (stem : String)
  | singleIco (stem : String) (size : Nat)
deriving DecidableEq, Repr

/-- Status and error message shapes emitted by the worker, one constructor
per distinct emission site in the source. -/
inductive Msg
  | processingFile (idx total : Nat) (stem : String)
  | skippingMultiResExists (stem : String)
  | errorConvertingSvg (stem : String)
  | skippingSvgUnavailable (stem : String)
  | errorLoadingImage (stem : String)
  | skippingUnsupportedType (stem : String)
  | generatingPngs (stem : String)
  | warnEmptyPng (size : Nat)
  | errorSavingPng (size : Nat) (stem : String)
  | generatingPackedIco (stem : String)
  | errorSavingMultiIco (stem : String)
  | generatingSingleIcos (stem : String)
  | warnSingleIcoNoPngOption (stem : String)
  | warnNoSuitablePngs (stem : String)
  | errorSavingSingleIco (size : Nat) (stem : String)
  | warnSourcePngMissing (size : Nat) (stem : String)
  | conversionCancelled
  | finishedSummary (processed skipped errored : Nat)
  | noImagesSelected
  | couldNotCreateFolders
deriving DecidableEq, Repr

/-- Events emitted by the worker: the five Qt signals `progress`,
`file_progress`, `status_update`, `error` (fatal) and `finished`
(the terminal RunResult). -/
inductive Event
  | progress (pct : Nat)
  | fileProgress (cur total : Nat)
  | statusUpdate (m : Msg)
  | fatalError (m : Msg)
  | finished (processed skipped errored : Nat)
deriving DecidableEq, Repr

/-- The external world: codec collaborators, save/mkdir outcomes, and the
schedule of asynchronous stop requests (indexed by `_is_running` read). -/
structure Env where
  svgAvailable : Bool
  svgDecode : InputFile → Option Bitmap
  rasterDecode : InputFile → Option Bitmap
  thumbnail : Bitmap → Nat → Bitmap
  pngSaveOk : String → Nat → Bool
  multiIcoSaveOk : String → Bool
  singleIcoSaveOk : String → Nat → Bool
  mkResizedOk : Bool
  mkIcoOk : Bool
  stopReq : Nat → Bool

/-- The worker's observable state: the `_is_running` flag, the number of
reads of that flag so far, the three counters, the set of existing output
files, and the emitted event trace in order. -/
structure WState where
  running : Bool
  checks : Nat
  processed : Nat
  skipped : Nat
  errored : Nat
  fs : List OutPath
  events : List Event
deriving DecidableEq, Repr

/-- Append one emitted event to the trace. -/
def emitEv (e : Event) (s : WState) : WState :=
  { s with events := s.events ++ [e] }

/-- One read of `self._is_running`: any stop request pending at this point
has already set the flag to `False`; the read returns the (new) flag value. -/
def readRunning (env : Env) (s : WState) : Bool × WState :=
  let r := s.running && !env.stopReq s.checks
  (r, { s with running := r, checks := s.checks + 1 })

/-- The initial worker state over a pre-existing output tree. -/
def initState (initFs : List OutPath) : WState :=
  { running := true, checks := 0, processed := 0, skipped := 0, errored := 0,
    fs := initFs, events := [] }

/-- The `width > 0 and height > 0` check at line 243 of the source. -/
def dimsPositive (b : Bitmap) : Bool :=
  decide (0 < b.width) && decide (0 < b.height)

inductive LoadResult
  | ok (img : Bitmap)
  | failed
  | unsupported
deriving DecidableEq, Repr

/-- The `ext.lower()` call of the source, written over the character list so
that it evaluates by kernel reduction. -/
def lowerExt (e : String) : String := String.mk (e.data.map Char.toLower)

/-- The image-loading block (source lines 177–218): SVG via the helper
(which is a decode failure if cairosvg is absent or fails), the six raster
extensions via Pillow, anything else unsupported; all exceptions become a
load error.  Emits the corresponding status messages. -/
def loadImage (env : Env) (f : InputFile) (s : WState) : LoadResult × WState :=
  if lowerExt f.ext = ".svg" then
    if env.svgAvailable then
      match env.svgDecode f with
      | some img => (LoadResult.ok img, s)
      | none =>
        (LoadResult.failed, emitEv (Event.statusUpdate (Msg.errorConvertingSvg f.stem)) s)
    else
      (LoadResult.failed, emitEv (Event.statusUpdate (Msg.skippingSvgUnavailable f.stem)) s)
  else if rasterExtensions.contains (lowerExt f.ext) then
    match env.rasterDecode f with
    | some img => (LoadResult.ok img, s)
    | none =>
      (LoadResult.failed, emitEv (Event.statusUpdate (Msg.errorLoadingImage f.stem)) s)
  else
    (LoadResult.unsupported, emitEv (Event.statusUpdate (Msg.skippingUnsupportedType f.stem)) s)

/-- The pure decode outcome of a file, independent of worker state. -/
def decodeOf (env : Env) (f : InputFile) : LoadResult :=
  if lowerExt f.ext = ".svg" then
    if env.svgAvailable then
      match env.svgDecode f with
      | some img => LoadResult.ok img
      | none => LoadResult.failed
    else LoadResult.failed
  else if rasterExtensions.contains (lowerExt f.ext) then
    match env.rasterDecode f with
    | some img => LoadResult.ok img
    | none => LoadResult.failed
  else LoadResult.unsupported

/-- The per-size loop of Step 1 (source lines 231–261): check cancellation,
resample a copy, save if both dimensions are positive (recording the path
for single-res ICOs when applicable), count a save failure as a step error
but keep going. -/
def pngLoop (env : Env) (opts : Options) (stem : String) (img : Bitmap) :
    List Nat → WState → List Nat → Bool → WState × List Nat × Bool
  | [], s, paths, stepErr => (s, paths, stepErr)
  | size :: rest, s, paths, stepErr =>
    let p := readRunning env s
    if p.1 then
      if dimsPositive (env.thumbnail img size) then
        if env.pngSaveOk stem size then
          pngLoop env opts stem img rest
            { p.2 with fs := OutPath.resizedPng stem size :: p.2.fs }
            (if opts.do_single_ico && ICO_ICON_SIZES.contains size then
              paths ++ [size] else paths)
            stepErr
        else
          pngLoop env opts stem img rest
            (emitEv (Event.statusUpdate (Msg.errorSavingPng size stem)) p.2) paths true
      else
        pngLoop env opts stem img rest
          (emitEv (Event.statusUpdate (Msg.warnEmptyPng size)) p.2) paths stepErr
    else (p.2, paths, stepErr)

/-- Step 1, generate resized PNGs (source lines 228–261). -/
def pngStage (env : Env) (opts : Options) (stem : String) (img : Bitmap) (s : WState) :
    WState × List Nat × Bool :=
  if opts.do_png then
    let p := readRunning env s
    if p.1 then
      pngLoop env opts stem img PNG_ICON_SIZES
        (emitEv (Event.statusUpdate (Msg.generatingPngs stem)) p.2) [] false
    else (p.2, [], false)
  else (s, [], false)

/-- Step 2, generate the packed multi-resolution ICO (source lines 263–277). -/
def multiIcoStage (env : Env) (opts : Options) (stem : String) (s : WState)
    (stepErr : Bool) : WState × Bool :=
  if opts.do_multi_ico then
    let p := readRunning env s
    if p.1 then
      let s2 := emitEv (Event.statusUpdate (Msg.generatingPackedIco stem)) p.2
      if env.multiIcoSaveOk stem then
        ({ s2 with fs := OutPath.packedIco stem :: s2.fs }, stepErr)
      else
        (emitEv (Event.statusUpdate (Msg.errorSavingMultiIco stem)) s2, true)
    else (p.2, stepErr)
  else (s, stepErr)

/-- The per-size loop of Step 3 (source lines 291–312): check cancellation,
re-open and re-save the recorded PNG as a single-res ICO; a save failure is
a step error; a recorded-but-missing PNG is only a warning. -/
def singleIcoLoop (env : Env) (stem : String) (paths : List Nat) :
    List Nat → WState → Bool → WState × Bool
  | [], s, stepErr => (s, stepErr)
  | size :: rest, s, stepErr =>
    let p := readRunning env s
    if p.1 then
      if paths.contains size then
        if p.2.fs.contains (OutPath.resizedPng stem size) then
          if env.singleIcoSaveOk stem size then
            singleIcoLoop env stem paths rest
              { p.2 with fs := OutPath.singleIco stem size :: p.2.fs } stepErr
          else
            singleIcoLoop env stem paths rest
              (emitEv (Event.statusUpdate (Msg.errorSavingSingleIco size stem)) p.2) true
        else
          singleIcoLoop env stem paths rest
            (emitEv (Event.statusUpdate (Msg.warnSourcePngMissing size stem)) p.2) stepErr
      else singleIcoLoop env stem paths rest p.2 stepErr
    else (p.2, stepErr)

/-- Step 3, generate single-resolution ICOs (source lines 279–312): a
warning-only no-op when PNG generation was disabled or no suitable PNG was
recorded. -/
def singleIcoStage (env : Env) (opts : Options) (stem : String) (paths : List Nat)
    (s : WState) (stepErr : Bool) : WState × Bool :=
  if opts.do_single_ico then
    let p := readRunning env s
    if p.1 then
      let s2 := emitEv (Event.statusUpdate (Msg.generatingSingleIcos stem)) p.2
      if !opts.do_png then
        (emitEv (Event.statusUpdate (Msg.warnSingleIcoNoPngOption stem)) s2, stepErr)
      else if paths.isEmpty then
        (emitEv (Event.statusUpdate (Msg.warnNoSuitablePngs stem)) s2, stepErr)
      else singleIcoLoop env stem paths ICO_ICON_SIZES s2 stepErr
    else (p.2, stepErr)
  else (s, stepErr)

/-- The body of one entered loop iteration (source lines 155–325): progress
and status events, the packed-ICO skip check, decode, the three generation
stages, and the per-file outcome. -/
def processFile (env : Env) (opts : Options) (total i : Nat) (f : InputFile)
    (s0 : WState) : WState :=
  let s := emitEv (Event.statusUpdate (Msg.processingFile (i + 1) total f.stem))
    (emitEv (Event.fileProgress (i + 1) total)
      (emitEv (Event.progress (((i + 1) * 100) / total)) s0))
  if opts.do_multi_ico && s.fs.contains (OutPath.packedIco f.stem) then
    let s2 := emitEv (Event.statusUpdate (Msg.skippingMultiResExists f.stem)) s
    { s2 with skipped := s2.skipped + 1 }
  else
    match loadImage env f s with
    | (LoadResult.unsupported, s2) => { s2 with skipped := s2.skipped + 1 }
    | (LoadResult.failed, s2) => { s2 with errored := s2.errored + 1 }
    | (LoadResult.ok img, s2) =>
      let a := pngStage env opts f.stem img s2
      let b := multiIcoStage env opts f.stem a.1 a.2.2
      let c := singleIcoStage env opts f.stem a.2.1 b.1 b.2
      if c.2 then { c.1 with errored := c.1.errored + 1 }
      else { c.1 with processed := c.1.processed + 1 }

/-- The file iteration (source lines 150–325): before each file, one read of
`_is_running`; a `false` read emits the cancelled status and breaks. -/
def runLoop (env : Env) (opts : Options) (total : Nat) :
    List InputFile → Nat → WState → WState
  | [], _, s => s
  | f :: rest, i, s =>
    let p := readRunning env s
    if p.1 then runLoop env opts total rest (i + 1) (processFile env opts total i f p.2)
    else emitEv (Event.statusUpdate Msg.conversionCancelled) p.2

/-- Whether the `os.makedirs` block (source lines 133–137) raises: the
`resized/` folder is only attempted when PNG generation is selected, the
`ico/` folder when either ICO option is selected. -/
def setupFails (env : Env) (opts : Options) : Bool :=
  (opts.do_png && !env.mkResizedOk)
    || ((opts.do_multi_ico || opts.do_single_ico) && !env.mkIcoOk)

/-- `run_conversion` (source lines 123–334): empty-list fatal path, setup
fatal path, the file loop, the end-of-run progress/summary (only when not
cancelled — one more flag read), and the terminal `finished` event on every
path. -/
def run_conversion (env : Env) (opts : Options) (files : List InputFile)
    (initFs : List OutPath) : WState :=
  if files.isEmpty then
    emitEv (Event.finished 0 0 0)
      (emitEv (Event.fatalError Msg.noImagesSelected) (initState initFs))
  else if setupFails env opts then
    emitEv (Event.finished 0 0 files.length)
      (emitEv (Event.fatalError Msg.couldNotCreateFolders) (initState initFs))
  else
    let s1 := runLoop env opts files.length files 0 (initState initFs)
    let p := readRunning env s1
    let s3 :=
      if p.1 then
        emitEv (Event.statusUpdate
            (Msg.finishedSummary p.2.processed p.2.skipped p.2.errored))
          (emitEv (Event.progress 100) p.2)
      else p.2
    emitEv (Event.finished s3.processed s3.skipped s3.errored) s3

/-- Number of loop iterations actually entered (the per-file `_is_running`
check observed `true`), mirroring `runLoop`'s control flow. -/
def enteredCount (env : Env) (opts : Options) (total : Nat) :
    List InputFile → Nat → WState → Nat
  | [], _, _ => 0
  | f :: rest, i, s =>
    let p := readRunning env s
    if p.1 then 1 + enteredCount env opts total rest (i + 1) (processFile env opts total i f p.2)
    else 0

/-- No stop request ever arrives. -/
def NoStop (env : Env) : Prop := ∀ n, env.stopReq n = false

/-- Size `z` would be saved by Step 1 but its save fails. -/
def pngSaveFails (env : Env) (stem : String) (img : Bitmap) (z : Nat) : Bool :=
  dimsPositive (env.thumbnail img z) && !env.pngSaveOk stem z

/-- Step 1 raises the step-level error flag. -/
def pngStepError (env : Env) (stem : String) (img : Bitmap) : Bool :=
  PNG_ICON_SIZES.any (pngSaveFails env stem img)

/-- Size `z` is saved by Step 1 and recorded for the single-ICO stage. -/
def recordCond (env : Env) (opts : Options) (stem : String) (img : Bitmap) (z : Nat) : Bool :=
  dimsPositive (env.thumbnail img z) && env.pngSaveOk stem z
    && (opts.do_single_ico && ICO_ICON_SIZES.contains z)

/-- The sizes recorded by Step 1 for the single-ICO stage, in order. -/
def recordedSizes (env : Env) (opts : Options) (stem : String) (img : Bitmap) : List Nat :=
  PNG_ICON_SIZES.filter (recordCond env opts stem img)

/-- Step 3 raises the step-level error flag. -/
def singleStepError (env : Env) (opts : Options) (stem : String) (img : Bitmap) : Bool :=
  ICO_ICON_SIZES.any fun z =>
    (recordedSizes env opts stem img).contains z && !env.singleIcoSaveOk stem z

/-- Some step of (f)/(g)/(h) raises the step-level error flag for a decoded
file, in an uncancelled run. -/
def stepErrorOccurred (env : Env) (opts : Options) (stem : String) (img : Bitmap) : Bool :=
  (opts.do_png && pngStepError env stem img)
    || (opts.do_multi_ico && !env.multiIcoSaveOk stem)
    || (opts.do_single_ico && opts.do_png && singleStepError env opts stem img)

section Frame

variable (env : Env) (f : InputFile) (s : WState) (e : Event)

@[simp] theorem emitEv_processed : (emitEv e s).processed = s.processed := rfl

@[simp] theorem emitEv_skipped : (emitEv e s).skipped = s.skipped := rfl

@[simp] theorem emitEv_errored : (emitEv e s).errored = s.errored := rfl

@[simp] theorem emitEv_fs : (emitEv e s).fs = s.fs := rfl

@[simp] theorem emitEv_running : (emitEv e s).running = s.running := rfl

@[simp] theorem emitEv_checks : (emitEv e s).checks = s.checks := rfl

@[simp] theorem emitEv_events : (emitEv e s).events = s.events ++ [e] := rfl

@[simp] theorem readRunning_fst :
    (readRunning env s).1 = (s.running && !env.stopReq s.checks) := rfl

@[simp] theorem readRunning_processed : (readRunning env s).2.processed = s.processed := rfl

@[simp] theorem readRunning_skipped : (readRunning env s).2.skipped = s.skipped := rfl

@[simp] theorem readRunning_errored : (readRunning env s).2.errored = s.errored := rfl

@[simp] theorem readRunning_fs : (readRunning env s).2.fs = s.fs := rfl

@[simp] theorem readRunning_events : (readRunning env s).2.events = s.events := rfl

@[simp] theorem readRunning_running :
    (readRunning env s).2.running = (s.running && !env.stopReq s.checks) := rfl

@[simp] theorem readRunning_checks : (readRunning env s).2.checks = s.checks + 1 := rfl

@[simp] theorem loadImage_fst : (loadImage env f s).1 = decodeOf env f := by
  unfold loadImage decodeOf
  repeat' split
  all_goals rfl

@[simp] theorem loadImage_processed : (loadImage env f s).2.processed = s.processed := by
  unfold loadImage
  repeat' split
  all_goals rfl

@[simp] theorem loadImage_skipped : (loadImage env f s).2.skipped = s.skipped := by
  unfold loadImage
  repeat' split
  all_goals rfl

@[simp] theorem loadImage_errored : (loadImage env f s).2.errored = s.errored := by
  unfold loadImage
  repeat' split
  all_goals rfl

@[simp] theorem loadImage_fs : (loadImage env f s).2.fs = s.fs := by
  unfold loadImage
  repeat' split
  all_goals rfl

@[simp] theorem loadImage_running : (loadImage env f s).2.running = s.running := by
  unfold loadImage
  repeat' split
  all_goals rfl

@[simp] theorem loadImage_checks : (loadImage env f s).2.checks = s.checks := by
  unfold loadImage
  repeat' split
  all_goals rfl

end Frame

section PngLoopLemmas

variable (env : Env) (opts : Options) (stem : String) (img : Bitmap)

theorem pngLoop_processed :
    ∀ (sizes : List Nat) (s : WState) (paths : List Nat) (stepErr : Bool),
    (pngLoop env opts stem img sizes s paths stepErr).1.processed = s.processed := by
  intro sizes
  induction sizes with
  | nil => intro s paths stepErr; simp [pngLoop]
  | cons z rest ih =>
    intro s paths stepErr
    simp only [pngLoop]
    split
    · split
      · split
        · rw [ih]; simp
        · rw [ih]; simp
      · rw [ih]; simp
    · simp

theorem pngLoop_skipped :
    ∀ (sizes : List Nat) (s : WState) (paths : List Nat) (stepErr : Bool),
    (pngLoop env opts stem img sizes s paths stepErr).1.skipped = s.skipped := by
  intro sizes
  induction sizes with
  | nil => intro s paths stepErr; simp [pngLoop]
  | cons z rest ih =>
    intro s paths stepErr
    simp only [pngLoop]
    split
    · split
      · split
        · rw [ih]; simp
        · rw [ih]; simp
      · rw [ih]; simp
    · simp

theorem pngLoop_errored :
    ∀ (sizes : List Nat) (s : WState) (paths : List Nat) (stepErr : Bool),
    (pngLoop env opts stem img sizes s paths stepErr).1.errored = s.errored := by
  intro sizes
  induction sizes with
  | nil => intro s paths stepErr; simp [pngLoop]
  | cons z rest ih =>
    intro s paths stepErr
    simp only [pngLoop]
    split
    · split
      · split
        · rw [ih]; simp
        · rw [ih]; simp
      · rw [ih]; simp
    · simp

theorem pngLoop_checks_ge :
    ∀ (sizes : List Nat) (s : WState) (paths : List Nat) (stepErr : Bool),
    s.checks ≤ (pngLoop env opts stem img sizes s paths stepErr).1.checks := by
  intro sizes
  induction sizes with
  | nil => intro s paths stepErr; simp [pngLoop]
  | cons z rest ih =>
    intro s paths stepErr
    simp only [pngLoop]
    split
    · split
      · split
        · exact le_trans (by simp) (ih _ _ _)
        · exact le_trans (by simp) (ih _ _ _)
      · exact le_trans (by simp) (ih _ _ _)
    · simp

theorem pngLoop_running_mono :
    ∀ (sizes : List Nat) (s : WState) (paths : List Nat) (stepErr : Bool),
    (pngLoop env opts stem img sizes s paths stepErr).1.running = true →
    s.running = true := by
  intro sizes
  induction sizes with
  | nil => intro s paths stepErr h; simpa [pngLoop] using h
  | cons z rest ih =>
    intro s paths stepErr h
    simp only [pngLoop] at h
    split at h
    · split at h
      · split at h
        · have := ih _ _ _ h
          simp at this
          exact this.1
        · have := ih _ _ _ h
          simp at this
          exact this.1
      · have := ih _ _ _ h
        simp at this
        exact this.1
    · simp at h
      exact h.1

theorem pngLoop_fs_mono :
    ∀ (sizes : List Nat) (s : WState) (paths : List Nat) (stepErr : Bool)
    (a : OutPath), a ∈ s.fs →
    a ∈ (pngLoop env opts stem img sizes s paths stepErr).1.fs := by
  intro sizes
  induction sizes with
  | nil => intro s paths stepErr a ha; simpa [pngLoop] using ha
  | cons z rest ih =>
    intro s paths stepErr a ha
    simp only [pngLoop]
    split
    · split
      · split
        · exact ih _ _ _ _ (by simp [List.mem_cons]; right; exact ha)
        · exact ih _ _ _ _ (by simpa using ha)
      · exact ih _ _ _ _ (by simpa using ha)
    · simpa using ha

theorem pngLoop_fs_sub :
    ∀ (sizes : List Nat) (s : WState) (paths : List Nat) (stepErr : Bool)
    (a : OutPath), a ∈ (pngLoop env opts stem img sizes s paths stepErr).1.fs →
    a ∈ s.fs ∨ ∃ z, a = OutPath.resizedPng stem z := by
  intro sizes
  induction sizes with
  | nil => intro s paths stepErr a ha; left; simpa [pngLoop] using ha
  | cons z rest ih =>
    intro s paths stepErr a ha
    simp only [pngLoop] at ha
    split at ha
    · split at ha
      · split at ha
        · rcases ih _ _ _ _ ha with h | h
          · simp at h
            rcases h with h | h
            · right; exact ⟨z, h⟩
            · left; exact h
          · right; exact h
        · rcases ih _ _ _ _ ha with h | h
          · left; simpa using h
          · right; exact h
      · rcases ih _ _ _ _ ha with h | h
        · left; simpa using h
        · right; exact h
    · left; simpa using ha

theorem pngLoop_spec (hns : NoStop env) :
    ∀ (sizes : List Nat) (s : WState) (paths : List Nat) (stepErr : Bool),
    s.running = true →
    ((pngLoop env opts stem img sizes s paths stepErr).2.2
        = (stepErr || sizes.any (pngSaveFails env stem img)))
    ∧ ((pngLoop env opts stem img sizes s paths stepErr).2.1
        = paths ++ sizes.filter (recordCond env opts stem img))
    ∧ (∀ z ∈ sizes, dimsPositive (env.thumbnail img z) = true →
        env.pngSaveOk stem z = true →
        OutPath.resizedPng stem z ∈ (pngLoop env opts stem img sizes s paths stepErr).1.fs)
    ∧ (pngLoop env opts stem img sizes s paths stepErr).1.running = true := by
  intro sizes s paths stepErr
  induction sizes, s, paths, stepErr using pngLoop.induct env opts stem img with
  | case1 s paths stepErr =>
    intro hrun
    simp [pngLoop, hrun]
  | case2 size rest s paths stepErr p hp hdims hsave ih =>
    intro hrun
    simp only [p] at hp ih
    simp [hrun, hns s.checks] at ih
    obtain ⟨ih1, ih2, ih3, ih4⟩ := ih
    refine ⟨?_, ?_, ?_, ?_⟩
    · simp [pngLoop, hrun, hns s.checks, hdims, hsave, pngSaveFails, ih1]
    · simp [pngLoop, hrun, hns s.checks, hdims, hsave, ih2, recordCond,
        List.filter_cons, List.append_assoc]
      by_cases hrec : opts.do_single_ico = true ∧ size ∈ ICO_ICON_SIZES
      · simp [hrec]
      · simp [hrec]
    · intro z' hz' hd' hs'
      rcases List.mem_cons.mp hz' with h | h
      · subst h
        simp only [pngLoop, readRunning_fst, hrun, hns s.checks, Bool.not_false,
          Bool.and_true, hdims, hsave, if_true]
        exact pngLoop_fs_mono env opts stem img _ _ _ _ _ (by simp)
      · simp [pngLoop, hrun, hns s.checks, hdims, hsave]
        simpa using ih3 z' h hd' hs'
    · simp [pngLoop, hrun, hns s.checks, hdims, hsave, ih4]
  | case3 size rest s paths stepErr p hp hdims hsave ih =>
    intro hrun
    simp only [p] at hp ih
    simp [hrun, hns s.checks] at ih
    obtain ⟨ih1, ih2, ih3, ih4⟩ := ih
    refine ⟨?_, ?_, ?_, ?_⟩
    · simp [pngLoop, hrun, hns s.checks, hdims, hsave, pngSaveFails, ih1]
    · simp [pngLoop, hrun, hns s.checks, hdims, hsave, ih2, recordCond, List.filter_cons]
    · intro z' hz' hd' hs'
      rcases List.mem_cons.mp hz' with h | h
      · subst h
        exact absurd hs' hsave
      · simp [pngLoop, hrun, hns s.checks, hdims, hsave]
        simpa using ih3 z' h hd' hs'
    · simp [pngLoop, hrun, hns s.checks, hdims, hsave, ih4]
  | case4 size rest s paths stepErr p hp hdims ih =>
    intro hrun
    simp only [p] at hp ih
    simp [hrun, hns s.checks] at ih
    obtain ⟨ih1, ih2, ih3, ih4⟩ := ih
    refine ⟨?_, ?_, ?_, ?_⟩
    · simp [pngLoop, hrun, hns s.checks, hdims, pngSaveFails, ih1]
    · simp [pngLoop, hrun, hns s.checks, hdims, ih2, recordCond, List.filter_cons]
    · intro z' hz' hd' hs'
      rcases List.mem_cons.mp hz' with h | h
      · subst h
        exact absurd hd' hdims
      · simp [pngLoop, hrun, hns s.checks, hdims]
        simpa using ih3 z' h hd' hs'
    · simp [pngLoop, hrun, hns s.checks, hdims, ih4]
  | case5 size rest s paths stepErr p hp =>
    intro hrun
    simp only [p] at hp
    simp [hrun] at hp
    rw [hns s.checks] at hp
    exact Bool.noConfusion hp

end PngLoopLemmas

section SingleIcoLoopLemmas

variable (env : Env) (stem : String) (paths : List Nat)

theorem singleIcoLoop_counters :
    ∀ (sizes : List Nat) (s : WState) (stepErr : Bool),
    ((singleIcoLoop env stem paths sizes s stepErr).1.processed = s.processed)
    ∧ ((singleIcoLoop env stem paths sizes s stepErr).1.skipped = s.skipped)
    ∧ ((singleIcoLoop env stem paths sizes s stepErr).1.errored = s.errored) := by
  intro sizes s stepErr
  induction sizes, s, stepErr using singleIcoLoop.induct env stem paths with
  | case1 s stepErr => simp [singleIcoLoop]
  | case2 size rest s stepErr p hp hcont hfs hok ih =>
    simp only [p] at hp hfs ih
    simp at hp hfs
    simp at hcont
    simp [hp.1, hp.2, hfs] at ih
    simp [singleIcoLoop, hp.1, hp.2, hcont, hfs, hok, ih]
  | case3 size rest s stepErr p hp hcont hfs hok ih =>
    simp only [p] at hp hfs ih
    simp at hp hfs
    simp at hcont
    simp [hp.1, hp.2, hfs] at ih
    simp [singleIcoLoop, hp.1, hp.2, hcont, hfs, hok, ih]
  | case4 size rest s stepErr p hp hcont hfs ih =>
    simp only [p] at hp hfs ih
    simp at hp hfs
    simp at hcont
    simp [hp.1, hp.2, hfs] at ih
    simp [singleIcoLoop, hp.1, hp.2, hcont, hfs, ih]
  | case5 size rest s stepErr p hp hcont ih =>
    simp only [p] at hp ih
    simp at hp
    simp [hp.1, hp.2] at ih
    simp at hcont
    simp [singleIcoLoop, hp.1, hp.2, hcont, ih]
  | case6 size rest s stepErr p hp =>
    simp only [p] at hp
    simp at hp
    have hcond : ¬(s.running = true ∧ env.stopReq s.checks = false) := by
      rintro ⟨h1, h2⟩
      rw [hp h1] at h2
      exact Bool.noConfusion h2
    simp [singleIcoLoop, hcond]

theorem singleIcoLoop_running_mono :
    ∀ (sizes : List Nat) (s : WState) (stepErr : Bool),
    (singleIcoLoop env stem paths sizes s stepErr).1.running = true →
    s.running = true := by
  intro sizes s stepErr
  induction sizes, s, stepErr using singleIcoLoop.induct env stem paths with
  | case1 s stepErr => intro h; simpa [singleIcoLoop] using h
  | case2 size rest s stepErr p hp hcont hfs hok ih =>
    simp only [p] at hp hfs ih
    simp at hp hfs
    simp at hcont
    intro h
    exact hp.1
  | case3 size rest s stepErr p hp hcont hfs hok ih =>
    simp only [p] at hp hfs ih
    simp at hp hfs
    simp at hcont
    intro h
    exact hp.1
  | case4 size rest s stepErr p hp hcont hfs ih =>
    simp only [p] at hp hfs ih
    simp at hp hfs
    simp at hcont
    intro h
    exact hp.1
  | case5 size rest s stepErr p hp hcont ih =>
    simp only [p] at hp ih
    simp at hp
    intro h
    exact hp.1
  | case6 size rest s stepErr p hp =>
    simp only [p] at hp
    simp at hp
    have hcond : ¬(s.running = true ∧ env.stopReq s.checks = false) := by
      rintro ⟨h1, h2⟩
      rw [hp h1] at h2
      exact Bool.noConfusion h2
    simp [singleIcoLoop, hcond]

theorem singleIcoLoop_fs_mono :
    ∀ (sizes : List Nat) (s : WState) (stepErr : Bool) (a : OutPath), a ∈ s.fs →
    a ∈ (singleIcoLoop env stem paths sizes s stepErr).1.fs := by
  intro sizes s stepErr
  induction sizes, s, stepErr using singleIcoLoop.induct env stem paths with
  | case1 s stepErr => intro a ha; simpa [singleIcoLoop] using ha
  | case2 size rest s stepErr p hp hcont hfs hok ih =>
    intro a ha
    simp only [p] at hp hfs ih
    simp at hp hfs
    simp at hcont
    try simp [hp.1, hp.2] at ih
    simp [singleIcoLoop, hp.1, hp.2, hcont, hfs, hok]
    first
    | exact ih.2 a ha
    | exact ih a (by simp [ha])
  | case3 size rest s stepErr p hp hcont hfs hok ih =>
    intro a ha
    simp only [p] at hp hfs ih
    simp at hp hfs
    simp at hcont
    try simp [hp.1, hp.2] at ih
    simp [singleIcoLoop, hp.1, hp.2, hcont, hfs, hok]
    first
    | exact ih.2 a ha
    | exact ih a (by simp [ha])
  | case4 size rest s stepErr p hp hcont hfs ih =>
    intro a ha
    simp only [p] at hp hfs ih
    simp at hp hfs
    simp at hcont
    try simp [hp.1, hp.2] at ih
    simp [singleIcoLoop, hp.1, hp.2, hcont, hfs]
    exact ih a (by simp [ha])
  | case5 size rest s stepErr p hp hcont ih =>
    intro a ha
    simp only [p] at hp ih
    simp at hp
    simp at hcont
    try simp [hp.1, hp.2] at ih
    simp [singleIcoLoop, hp.1, hp.2, hcont]
    exact ih a (by simp [ha])
  | case6 size rest s stepErr p hp =>
    intro a ha
    simp only [p] at hp
    simp at hp
    have hcond : ¬(s.running = true ∧ env.stopReq s.checks = false) := by
      rintro ⟨h1, h2⟩
      rw [hp h1] at h2
      exact Bool.noConfusion h2
    simpa [singleIcoLoop, hcond] using ha

theorem singleIcoLoop_fs_sub :
    ∀ (sizes : List Nat) (s : WState) (stepErr : Bool) (a : OutPath),
    a ∈ (singleIcoLoop env stem paths sizes s stepErr).1.fs →
    a ∈ s.fs ∨ ∃ z, a = OutPath.singleIco stem z := by
  intro sizes s stepErr
  induction sizes, s, stepErr using singleIcoLoop.induct env stem paths with
  | case1 s stepErr => intro a ha; left; simpa [singleIcoLoop] using ha
  | case2 size rest s stepErr p hp hcont hfs hok ih =>
    intro a ha
    simp only [p] at hp hfs ih
    simp at hp hfs
    simp at hcont
    try simp [hp.1, hp.2] at ih
    simp [singleIcoLoop, hp.1, hp.2, hcont, hfs, hok] at ha
    rcases ih a ha with h | h
    · try simp at h
      rcases h with h | h
      · right; exact ⟨size, h⟩
      · left; exact h
    · right; exact h
  | case3 size rest s stepErr p hp hcont hfs hok ih =>
    intro a ha
    simp only [p] at hp hfs ih
    simp at hp hfs
    simp at hcont
    try simp [hp.1, hp.2] at ih
    simp [singleIcoLoop, hp.1, hp.2, hcont, hfs, hok] at ha
    rcases ih a ha with h | h
    · left; simpa using h
    · right; exact h
  | case4 size rest s stepErr p hp hcont hfs ih =>
    intro a ha
    simp only [p] at hp hfs ih
    simp at hp hfs
    simp at hcont
    try simp [hp.1, hp.2] at ih
    simp [singleIcoLoop, hp.1, hp.2, hcont, hfs] at ha
    rcases ih a ha with h | h
    · left; simpa using h
    · right; exact h
  | case5 size rest s stepErr p hp hcont ih =>
    intro a ha
    simp only [p] at hp ih
    simp at hp
    simp at hcont
    try simp [hp.1, hp.2] at ih
    simp [singleIcoLoop, hp.1, hp.2, hcont] at ha
    rcases ih a ha with h | h
    · left; simpa using h
    · right; exact h
  | case6 size rest s stepErr p hp =>
    intro a ha
    simp only [p] at hp
    simp at hp
    have hcond : ¬(s.running = true ∧ env.stopReq s.checks = false) := by
      rintro ⟨h1, h2⟩
      rw [hp h1] at h2
      exact Bool.noConfusion h2
    left
    simpa [singleIcoLoop, hcond] using ha

theorem singleIcoLoop_spec (hns : NoStop env) :
    ∀ (sizes : List Nat) (s : WState) (stepErr : Bool),
    s.running = true →
    (∀ z ∈ paths, OutPath.resizedPng stem z ∈ s.fs) →
    ((singleIcoLoop env stem paths sizes s stepErr).2
        = (stepErr || sizes.any fun z => paths.contains z && !env.singleIcoSaveOk stem z))
    ∧ (singleIcoLoop env stem paths sizes s stepErr).1.running = true := by
  intro sizes s stepErr
  induction sizes, s, stepErr using singleIcoLoop.induct env stem paths with
  | case1 s stepErr =>
    intro hrun hinv
    simp [singleIcoLoop, hrun]
  | case2 size rest s stepErr p hp hcont hfs hok ih =>
    intro hrun hinv
    simp only [p] at hp hfs ih
    simp at hp hfs
    simp at hcont
    simp [hrun, hns s.checks, hfs] at ih
    obtain ⟨ih1, ih2⟩ := ih hinv
    refine ⟨?_, ?_⟩
    · simp [singleIcoLoop, hrun, hns s.checks, hcont, hfs, hok, ih1]
    · simp [singleIcoLoop, hrun, hns s.checks, hcont, hfs, hok, ih2]
  | case3 size rest s stepErr p hp hcont hfs hok ih =>
    intro hrun hinv
    simp only [p] at hp hfs ih
    simp at hp hfs
    simp at hcont
    simp [hrun, hns s.checks, hfs] at ih
    obtain ⟨ih1, ih2⟩ := ih hinv
    refine ⟨?_, ?_⟩
    · simp [singleIcoLoop, hrun, hns s.checks, hcont, hfs, hok, ih1]
    · simp [singleIcoLoop, hrun, hns s.checks, hcont, hfs, hok, ih2]
  | case4 size rest s stepErr p hp hcont hfs ih =>
    intro hrun hinv
    simp only [p] at hp hfs ih
    simp at hp hfs
    simp at hcont
    exact absurd (hinv size hcont) hfs
  | case5 size rest s stepErr p hp hcont ih =>
    intro hrun hinv
    simp only [p] at hp ih
    simp at hp hcont
    simp [hrun, hns s.checks] at ih
    obtain ⟨ih1, ih2⟩ := ih hinv
    refine ⟨?_, ?_⟩
    · simp [singleIcoLoop, hrun, hns s.checks, hcont, ih1]
    · simp [singleIcoLoop, hrun, hns s.checks, hcont, ih2]
  | case6 size rest s stepErr p hp =>
    intro hrun hinv
    simp only [p] at hp
    simp [hrun] at hp
    rw [hns s.checks] at hp
    exact Bool.noConfusion hp

end SingleIcoLoopLemmas

/-- The run is (or is about to be observed as) cancelled: either the flag is
already `false`, or a stop request is pending for every future flag read. -/
def Halted (env : Env) (s : WState) : Prop :=
  s.running = false ∨ ∀ n, s.checks ≤ n → env.stopReq n = true

section StageLemmas

variable (env : Env) (opts : Options) (stem : String) (img : Bitmap)

theorem halted_read (s : WState) (h : Halted env s) :
    (readRunning env s).1 = false ∧ (readRunning env s).2.running = false := by
  rcases h with h | h
  · simp [h]
  · simp [h s.checks (le_refl _)]

theorem halted_emit (s : WState) (e : Event) (h : Halted env s) :
    Halted env (emitEv e s) := by
  rcases h with h | h
  · exact Or.inl (by simpa using h)
  · exact Or.inr (by simpa using h)

theorem pngStage_counters (s : WState) :
    ((pngStage env opts stem img s).1.processed = s.processed)
    ∧ ((pngStage env opts stem img s).1.skipped = s.skipped)
    ∧ ((pngStage env opts stem img s).1.errored = s.errored) := by
  simp only [pngStage]
  split
  · split
    · simp [pngLoop_processed, pngLoop_skipped, pngLoop_errored]
    · simp
  · simp

theorem pngStage_running_mono (s : WState)
    (h : (pngStage env opts stem img s).1.running = true) : s.running = true := by
  simp only [pngStage] at h
  split at h
  · split at h
    · have := pngLoop_running_mono env opts stem img _ _ _ _ h
      simp at this
      exact this.1
    · simp at h
      exact h.1
  · exact h

theorem pngStage_halted (s : WState) (h : Halted env s) :
    ((pngStage env opts stem img s).1.fs = s.fs)
    ∧ ((pngStage env opts stem img s).1.processed = s.processed)
    ∧ ((pngStage env opts stem img s).1.skipped = s.skipped)
    ∧ ((pngStage env opts stem img s).1.errored = s.errored)
    ∧ ((pngStage env opts stem img s).2.1 = [])
    ∧ ((pngStage env opts stem img s).2.2 = false)
    ∧ Halted env (pngStage env opts stem img s).1 := by
  obtain ⟨h1, h2⟩ := halted_read env s h
  simp only [pngStage]
  split
  · rw [h1]
    simp only [Bool.false_eq_true, if_false]
    refine ⟨by simp, by simp, by simp, by simp, by simp, by simp, Or.inl (by simpa using h2)⟩
  · exact ⟨rfl, rfl, rfl, rfl, rfl, rfl, h⟩

theorem pngStage_spec (hns : NoStop env) (s : WState) (hrun : s.running = true) :
    ((pngStage env opts stem img s).2.2 = (opts.do_png && pngStepError env stem img))
    ∧ ((pngStage env opts stem img s).2.1
        = (if opts.do_png then recordedSizes env opts stem img else []))
    ∧ (∀ a ∈ s.fs, a ∈ (pngStage env opts stem img s).1.fs)
    ∧ (opts.do_png = true → ∀ z ∈ PNG_ICON_SIZES,
        dimsPositive (env.thumbnail img z) = true → env.pngSaveOk stem z = true →
        OutPath.resizedPng stem z ∈ (pngStage env opts stem img s).1.fs)
    ∧ (∀ z ∈ (pngStage env opts stem img s).2.1,
        OutPath.resizedPng stem z ∈ (pngStage env opts stem img s).1.fs)
    ∧ (pngStage env opts stem img s).1.running = true := by
  simp only [pngStage]
  by_cases hpng : opts.do_png = true
  · simp only [hpng, if_true, readRunning_fst, hrun, hns s.checks, Bool.not_false,
      Bool.and_true, Bool.true_and]
    have hrun2 : (emitEv (Event.statusUpdate (Msg.generatingPngs stem))
        (readRunning env s).2).running = true := by
      simp [hrun, hns s.checks]
    obtain ⟨h1, h2, h3, h4⟩ :=
      pngLoop_spec env opts stem img hns PNG_ICON_SIZES _ [] false hrun2
    refine ⟨by simpa [pngStepError] using h1, by simpa [recordedSizes] using h2,
      ?_, ?_, ?_, h4⟩
    · intro a ha
      exact pngLoop_fs_mono env opts stem img _ _ _ _ a (by simpa using ha)
    · intro _ z hz hd hsv
      exact h3 z hz hd hsv
    · intro z hz
      rw [h2] at hz
      simp only [List.nil_append] at hz
      have hz2 := List.mem_filter.mp hz
      have hcond := hz2.2
      simp only [recordCond, Bool.and_eq_true] at hcond
      exact h3 z hz2.1 hcond.1.1 hcond.1.2
  · simp only [Bool.not_eq_true] at hpng
    simp [hpng, hrun]

theorem multiIcoStage_counters (s : WState) (stepErr : Bool) :
    ((multiIcoStage env opts stem s stepErr).1.processed = s.processed)
    ∧ ((multiIcoStage env opts stem s stepErr).1.skipped = s.skipped)
    ∧ ((multiIcoStage env opts stem s stepErr).1.errored = s.errored) := by
  simp only [multiIcoStage]
  split
  · split
    · split <;> simp
    · simp
  · simp

theorem multiIcoStage_running_mono (s : WState) (stepErr : Bool)
    (h : (multiIcoStage env opts stem s stepErr).1.running = true) : s.running = true := by
  simp only [multiIcoStage] at h
  split at h
  · split at h
    · split at h <;> (simp at h; exact h.1)
    · simp at h
      exact h.1
  · exact h

theorem multiIcoStage_halted (s : WState) (stepErr : Bool) (h : Halted env s) :
    ((multiIcoStage env opts stem s stepErr).1.fs = s.fs)
    ∧ ((multiIcoStage env opts stem s stepErr).1.processed = s.processed)
    ∧ ((multiIcoStage env opts stem s stepErr).1.skipped = s.skipped)
    ∧ ((multiIcoStage env opts stem s stepErr).1.errored = s.errored)
    ∧ ((multiIcoStage env opts stem s stepErr).2 = stepErr)
    ∧ Halted env (multiIcoStage env opts stem s stepErr).1 := by
  obtain ⟨h1, h2⟩ := halted_read env s h
  simp only [multiIcoStage]
  split
  · rw [h1]
    simp only [Bool.false_eq_true, if_false]
    refine ⟨by simp, by simp, by simp, by simp, by simp, Or.inl (by simpa using h2)⟩
  · exact ⟨rfl, rfl, rfl, rfl, rfl, h⟩

theorem multiIcoStage_spec (hns : NoStop env) (s : WState) (stepErr : Bool)
    (hrun : s.running = true) :
    ((multiIcoStage env opts stem s stepErr).2
        = (stepErr || (opts.do_multi_ico && !env.multiIcoSaveOk stem)))
    ∧ ((multiIcoStage env opts stem s stepErr).1.fs
        = (if (opts.do_multi_ico && env.multiIcoSaveOk stem) = true then
            OutPath.packedIco stem :: s.fs else s.fs))
    ∧ (multiIcoStage env opts stem s stepErr).1.running = true := by
  simp only [multiIcoStage]
  by_cases hmulti : opts.do_multi_ico = true
  · simp only [hmulti, if_true, readRunning_fst, hrun, hns s.checks, Bool.not_false,
      Bool.and_true, Bool.true_and]
    by_cases hok : env.multiIcoSaveOk stem = true
    · simp [hok, hrun, hns s.checks]
    · simp only [Bool.not_eq_true] at hok
      simp [hok, hrun, hns s.checks]
  · simp only [Bool.not_eq_true] at hmulti
    simp [hmulti, hrun]

theorem singleIcoStage_counters (paths : List Nat) (s : WState) (stepErr : Bool) :
    ((singleIcoStage env opts stem paths s stepErr).1.processed = s.processed)
    ∧ ((singleIcoStage env opts stem paths s stepErr).1.skipped = s.skipped)
    ∧ ((singleIcoStage env opts stem paths s stepErr).1.errored = s.errored) := by
  simp only [singleIcoStage]
  split
  · split
    · split
      · simp
      · split
        · simp
        · simp [singleIcoLoop_counters]
    · simp
  · simp

theorem singleIcoStage_running_mono (paths : List Nat) (s : WState) (stepErr : Bool)
    (h : (singleIcoStage env opts stem paths s stepErr).1.running = true) :
    s.running = true := by
  simp only [singleIcoStage] at h
  split at h
  · split at h
    · split at h
      · simp at h
        exact h.1
      · split at h
        · simp at h
          exact h.1
        · have := singleIcoLoop_running_mono env stem paths _ _ _ h
          simp at this
          exact this.1
    · simp at h
      exact h.1
  · exact h

theorem singleIcoStage_halted (paths : List Nat) (s : WState) (stepErr : Bool)
    (h : Halted env s) :
    ((singleIcoStage env opts stem paths s stepErr).1.fs = s.fs)
    ∧ ((singleIcoStage env opts stem paths s stepErr).1.processed = s.processed)
    ∧ ((singleIcoStage env opts stem paths s stepErr).1.skipped = s.skipped)
    ∧ ((singleIcoStage env opts stem paths s stepErr).1.errored = s.errored)
    ∧ ((singleIcoStage env opts stem paths s stepErr).2 = stepErr) := by
  obtain ⟨h1, _⟩ := halted_read env s h
  simp only [singleIcoStage]
  split
  · rw [h1]
    simp only [Bool.false_eq_true, if_false]
    refine ⟨by simp, by simp, by simp, by simp, by simp⟩
  · exact ⟨rfl, rfl, rfl, rfl, rfl⟩

theorem singleIcoStage_spec (hns : NoStop env) (paths : List Nat) (s : WState)
    (stepErr : Bool) (hrun : s.running = true)
    (hinv : ∀ z ∈ paths, OutPath.resizedPng stem z ∈ s.fs) :
    ((singleIcoStage env opts stem paths s stepErr).2
        = (stepErr || (opts.do_single_ico && opts.do_png
            && ICO_ICON_SIZES.any fun z => paths.contains z && !env.singleIcoSaveOk stem z)))
    ∧ (∀ a ∈ s.fs, a ∈ (singleIcoStage env opts stem paths s stepErr).1.fs)
    ∧ (singleIcoStage env opts stem paths s stepErr).1.running = true := by
  simp only [singleIcoStage]
  by_cases hsingle : opts.do_single_ico = true
  · simp only [hsingle, if_true, readRunning_fst, hrun, hns s.checks, Bool.not_false,
      Bool.and_true, Bool.true_and]
    by_cases hpng : opts.do_png = true
    · simp only [hpng, Bool.not_true, Bool.false_eq_true, if_false, Bool.true_and]
      by_cases hemp : paths.isEmpty = true
      · have hpe : paths = [] := List.isEmpty_iff.mp hemp
        subst hpe
        simp [hrun, hns s.checks]
      · simp only [Bool.not_eq_true] at hemp
        simp only [hemp, Bool.false_eq_true, if_false]
        have hrun2 : (emitEv (Event.statusUpdate (Msg.generatingSingleIcos stem))
            (readRunning env s).2).running = true := by
          simp [hrun, hns s.checks]
        have hinv2 : ∀ z ∈ paths, OutPath.resizedPng stem z ∈
            (emitEv (Event.statusUpdate (Msg.generatingSingleIcos stem))
              (readRunning env s).2).fs := by
          intro z hz
          simpa using hinv z hz
        obtain ⟨h1, h2⟩ :=
          singleIcoLoop_spec env stem paths hns ICO_ICON_SIZES _ stepErr hrun2 hinv2
        refine ⟨by simpa using h1, ?_, h2⟩
        · intro a ha
          exact singleIcoLoop_fs_mono env stem paths _ _ _ a (by simpa using ha)
    · simp only [Bool.not_eq_true] at hpng
      simp [hpng, hrun, hns s.checks]
  · simp only [Bool.not_eq_true] at hsingle
    simp [hsingle, hrun]

end StageLemmas

section ProcessFileLemmas

variable (env : Env) (opts : Options) (total i : Nat) (f : InputFile)

theorem loadImage_eta (s : WState) :
    loadImage env f s = (decodeOf env f, (loadImage env f s).2) := by
  rw [← loadImage_fst env f s]

theorem processFile_skip (s : WState)
    (hskip : (opts.do_multi_ico && s.fs.contains (OutPath.packedIco f.stem)) = true) :
    ((processFile env opts total i f s).skipped = s.skipped + 1)
    ∧ ((processFile env opts total i f s).processed = s.processed)
    ∧ ((processFile env opts total i f s).errored = s.errored)
    ∧ ((processFile env opts total i f s).fs = s.fs)
    ∧ ((processFile env opts total i f s).running = s.running)
    ∧ ((processFile env opts total i f s).checks = s.checks)
    ∧ ((processFile env opts total i f s).events = s.events
        ++ [Event.progress (((i + 1) * 100) / total), Event.fileProgress (i + 1) total,
            Event.statusUpdate (Msg.processingFile (i + 1) total f.stem),
            Event.statusUpdate (Msg.skippingMultiResExists f.stem)]) := by
  simp at hskip
  simp [processFile, hskip]

theorem processFile_unsupported (s : WState)
    (hdec : decodeOf env f = LoadResult.unsupported) :
    ((processFile env opts total i f s).skipped = s.skipped + 1)
    ∧ ((processFile env opts total i f s).processed = s.processed)
    ∧ ((processFile env opts total i f s).errored = s.errored)
    ∧ ((processFile env opts total i f s).fs = s.fs)
    ∧ ((processFile env opts total i f s).running = s.running)
    ∧ ((processFile env opts total i f s).checks = s.checks) := by
  simp only [processFile]
  rw [loadImage_eta, hdec]
  by_cases hc : opts.do_multi_ico = true ∧ OutPath.packedIco f.stem ∈ s.fs
  · simp [hc]
  · simp [hc]

theorem processFile_failed (s : WState)
    (hskip : (opts.do_multi_ico && s.fs.contains (OutPath.packedIco f.stem)) = false)
    (hdec : decodeOf env f = LoadResult.failed) :
    ((processFile env opts total i f s).errored = s.errored + 1)
    ∧ ((processFile env opts total i f s).processed = s.processed)
    ∧ ((processFile env opts total i f s).skipped = s.skipped)
    ∧ ((processFile env opts total i f s).fs = s.fs)
    ∧ ((processFile env opts total i f s).running = s.running)
    ∧ ((processFile env opts total i f s).checks = s.checks) := by
  simp only [processFile]
  simp at hskip
  rw [loadImage_eta, hdec]
  have hc : ¬(opts.do_multi_ico = true ∧ OutPath.packedIco f.stem ∈ s.fs) := by
    rintro ⟨h1, h2⟩
    exact hskip h1 h2
  simp [hc]

theorem processFile_sum (s : WState) :
    (processFile env opts total i f s).processed + (processFile env opts total i f s).skipped
      + (processFile env opts total i f s).errored
    = s.processed + s.skipped + s.errored + 1 := by
  simp only [processFile]
  by_cases hskip : (opts.do_multi_ico && s.fs.contains (OutPath.packedIco f.stem)) = true
  · simp at hskip
    simp [hskip]
    omega
  · simp at hskip
    have hc : ¬(opts.do_multi_ico = true ∧ OutPath.packedIco f.stem ∈ s.fs) := by
      rintro ⟨h1, h2⟩
      exact hskip h1 h2
    rw [loadImage_eta]
    rcases hd : decodeOf env f with img | _ | _
    · simp [hc]
      set S2 := (loadImage env f (emitEv (Event.statusUpdate (Msg.processingFile (i + 1) total f.stem))
        (emitEv (Event.fileProgress (i + 1) total)
          (emitEv (Event.progress ((i + 1) * 100 / total)) s)))).2 with hS2
      set A := pngStage env opts f.stem img S2 with hA
      set B := multiIcoStage env opts f.stem A.1 A.2.2 with hB
      set C := singleIcoStage env opts f.stem A.2.1 B.1 B.2 with hC
      obtain ⟨pc1, pc2, pc3⟩ := pngStage_counters env opts f.stem img S2
      obtain ⟨mc1, mc2, mc3⟩ := multiIcoStage_counters env opts f.stem A.1 A.2.2
      obtain ⟨sc1, sc2, sc3⟩ := singleIcoStage_counters env opts f.stem A.2.1 B.1 B.2
      rw [← hA] at pc1 pc2 pc3
      rw [← hB] at mc1 mc2 mc3
      rw [← hC] at sc1 sc2 sc3
      have hS2p : S2.processed = s.processed := by rw [hS2]; simp
      have hS2s : S2.skipped = s.skipped := by rw [hS2]; simp
      have hS2e : S2.errored = s.errored := by rw [hS2]; simp
      by_cases hfin : C.2 = true
      · simp [hfin, sc1, sc2, sc3, mc1, mc2, mc3, pc1, pc2, pc3, hS2p, hS2s, hS2e]
        omega
      · simp [hfin, sc1, sc2, sc3, mc1, mc2, mc3, pc1, pc2, pc3, hS2p, hS2s, hS2e]
        omega
    · simp [hc]
      omega
    · simp [hc]
      omega

theorem processFile_ok_spec (hns : NoStop env) (s : WState) (img : Bitmap)
    (hrun : s.running = true)
    (hskip : (opts.do_multi_ico && s.fs.contains (OutPath.packedIco f.stem)) = false)
    (hdec : decodeOf env f = LoadResult.ok img) :
    ((processFile env opts total i f s).processed
        = s.processed + (if stepErrorOccurred env opts f.stem img = true then 0 else 1))
    ∧ ((processFile env opts total i f s).errored
        = s.errored + (if stepErrorOccurred env opts f.stem img = true then 1 else 0))
    ∧ ((processFile env opts total i f s).skipped = s.skipped)
    ∧ (∀ a ∈ s.fs, a ∈ (processFile env opts total i f s).fs)
    ∧ (opts.do_png = true → ∀ z ∈ PNG_ICON_SIZES,
        dimsPositive (env.thumbnail img z) = true → env.pngSaveOk f.stem z = true →
        OutPath.resizedPng f.stem z ∈ (processFile env opts total i f s).fs)
    ∧ ((opts.do_multi_ico && env.multiIcoSaveOk f.stem) = true →
        OutPath.packedIco f.stem ∈ (processFile env opts total i f s).fs)
    ∧ (processFile env opts total i f s).running = true := by
  simp only [processFile, emitEv_fs]
  rw [hskip]
  simp only [Bool.false_eq_true, if_false]
  rw [loadImage_eta, hdec]
  dsimp only
  set S0 := emitEv (Event.statusUpdate (Msg.processingFile (i + 1) total f.stem))
      (emitEv (Event.fileProgress (i + 1) total)
        (emitEv (Event.progress ((i + 1) * 100 / total)) s)) with hS0
  set S2 := (loadImage env f S0).2 with hS2
  set A := pngStage env opts f.stem img S2 with hA
  set B := multiIcoStage env opts f.stem A.1 A.2.2 with hB
  set C := singleIcoStage env opts f.stem A.2.1 B.1 B.2 with hC
  have hS2run : S2.running = true := by rw [hS2, hS0]; simp [hrun]
  have hS2fs : S2.fs = s.fs := by rw [hS2, hS0]; simp
  have hS2p : S2.processed = s.processed := by rw [hS2, hS0]; simp
  have hS2s : S2.skipped = s.skipped := by rw [hS2, hS0]; simp
  have hS2e : S2.errored = s.errored := by rw [hS2, hS0]; simp
  obtain ⟨pa1, pa2, pa3, pa4, pa5, pa6⟩ := pngStage_spec env opts f.stem img hns S2 hS2run
  rw [← hA] at pa1 pa2 pa3 pa4 pa5 pa6
  obtain ⟨ma1, ma2, ma3⟩ := multiIcoStage_spec env opts f.stem hns A.1 A.2.2 pa6
  rw [← hB] at ma1 ma2 ma3
  have hinv : ∀ z ∈ A.2.1, OutPath.resizedPng f.stem z ∈ B.1.fs := by
    intro z hz
    rw [ma2]
    split
    · exact List.mem_cons_of_mem _ (pa5 z hz)
    · exact pa5 z hz
  obtain ⟨sa1, sa2, sa3⟩ := singleIcoStage_spec env opts f.stem hns A.2.1 B.1 B.2 ma3 hinv
  rw [← hC] at sa1 sa2 sa3
  obtain ⟨pc1, pc2, pc3⟩ := pngStage_counters env opts f.stem img S2
  rw [← hA] at pc1 pc2 pc3
  obtain ⟨mc1, mc2, mc3⟩ := multiIcoStage_counters env opts f.stem A.1 A.2.2
  rw [← hB] at mc1 mc2 mc3
  obtain ⟨sc1, sc2, sc3⟩ := singleIcoStage_counters env opts f.stem A.2.1 B.1 B.2
  rw [← hC] at sc1 sc2 sc3
  have hCeq : C.2 = stepErrorOccurred env opts f.stem img := by
    rw [sa1, ma1, pa1, pa2]
    by_cases hpng : opts.do_png = true
    · simp only [hpng, if_true]
      simp [stepErrorOccurred, pngStepError, singleStepError, hpng, Bool.or_assoc]
    · simp only [Bool.not_eq_true] at hpng
      simp [hpng, stepErrorOccurred]
  have hfsmonoC : ∀ a ∈ s.fs, a ∈ C.1.fs := by
    intro a ha
    apply sa2
    rw [ma2]
    have haA : a ∈ A.1.fs := pa3 a (by rw [hS2fs]; exact ha)
    split
    · exact List.mem_cons_of_mem _ haA
    · exact haA
  have hpngmemC : opts.do_png = true → ∀ z ∈ PNG_ICON_SIZES,
      dimsPositive (env.thumbnail img z) = true → env.pngSaveOk f.stem z = true →
      OutPath.resizedPng f.stem z ∈ C.1.fs := by
    intro hpng z hz hd hsv
    apply sa2
    rw [ma2]
    split
    · exact List.mem_cons_of_mem _ (pa4 hpng z hz hd hsv)
    · exact pa4 hpng z hz hd hsv
  have hpackC : (opts.do_multi_ico && env.multiIcoSaveOk f.stem) = true →
      OutPath.packedIco f.stem ∈ C.1.fs := by
    intro hmk
    apply sa2
    rw [ma2, if_pos hmk]
    exact List.mem_cons_self _ _
  by_cases hfin : stepErrorOccurred env opts f.stem img = true
  · have hfin2 : C.2 = true := by rw [hCeq]; exact hfin
    refine ⟨?_, ?_, ?_, ?_, ?_, ?_, ?_⟩
    · simp [hfin2, hfin, sc1, mc1, pc1, hS2p]
    · simp [hfin2, hfin, sc3, mc3, pc3, hS2e]
    · simp [hfin2, sc2, mc2, pc2, hS2s]
    · intro a ha
      simpa [hfin2] using hfsmonoC a ha
    · intro hpng z hz hd hsv
      simpa [hfin2] using hpngmemC hpng z hz hd hsv
    · intro hmk
      simpa [hfin2] using hpackC hmk
    · simp [hfin2, sa3]
  · have hfin2 : C.2 = false := by
      rw [hCeq]
      simpa using hfin
    refine ⟨?_, ?_, ?_, ?_, ?_, ?_, ?_⟩
    · simp [hfin2, hfin, sc1, mc1, pc1, hS2p]
    · simp [hfin2, hfin, sc3, mc3, pc3, hS2e]
    · simp [hfin2, sc2, mc2, pc2, hS2s]
    · intro a ha
      simpa [hfin2] using hfsmonoC a ha
    · intro hpng z hz hd hsv
      simpa [hfin2] using hpngmemC hpng z hz hd hsv
    · intro hmk
      simpa [hfin2] using hpackC hmk
    · simp [hfin2, sa3]

theorem processFile_ok_halted (s : WState) (img : Bitmap)
    (hrun : s.running = true)
    (hstop : ∀ n, s.checks ≤ n → env.stopReq n = true)
    (hskip : (opts.do_multi_ico && s.fs.contains (OutPath.packedIco f.stem)) = false)
    (hdec : decodeOf env f = LoadResult.ok img) :
    ((processFile env opts total i f s).processed = s.processed + 1)
    ∧ ((processFile env opts total i f s).skipped = s.skipped)
    ∧ ((processFile env opts total i f s).errored = s.errored)
    ∧ ((processFile env opts total i f s).fs = s.fs) := by
  simp only [processFile, emitEv_fs]
  rw [hskip]
  simp only [Bool.false_eq_true, if_false]
  rw [loadImage_eta, hdec]
  dsimp only
  set S0 := emitEv (Event.statusUpdate (Msg.processingFile (i + 1) total f.stem))
      (emitEv (Event.fileProgress (i + 1) total)
        (emitEv (Event.progress ((i + 1) * 100 / total)) s)) with hS0
  set S2 := (loadImage env f S0).2 with hS2
  set A := pngStage env opts f.stem img S2 with hA
  set B := multiIcoStage env opts f.stem A.1 A.2.2 with hB
  set C := singleIcoStage env opts f.stem A.2.1 B.1 B.2 with hC
  have hS2fs : S2.fs = s.fs := by rw [hS2, hS0]; simp
  have hS2p : S2.processed = s.processed := by rw [hS2, hS0]; simp
  have hS2s : S2.skipped = s.skipped := by rw [hS2, hS0]; simp
  have hS2e : S2.errored = s.errored := by rw [hS2, hS0]; simp
  have hH : Halted env S2 := by
    refine Or.inr ?_
    intro n hn
    apply hstop
    rw [hS2, hS0] at hn
    simpa using hn
  obtain ⟨ph1, ph2, ph3, ph4, ph5, ph6, ph7⟩ := pngStage_halted env opts f.stem img S2 hH
  rw [← hA] at ph1 ph2 ph3 ph4 ph5 ph6 ph7
  obtain ⟨mh1, mh2, mh3, mh4, mh5, mh6⟩ :=
    multiIcoStage_halted env opts f.stem A.1 A.2.2 ph7
  rw [← hB] at mh1 mh2 mh3 mh4 mh5 mh6
  obtain ⟨sh1, sh2, sh3, sh4, sh5⟩ :=
    singleIcoStage_halted env opts f.stem A.2.1 B.1 B.2 mh6
  rw [← hC] at sh1 sh2 sh3 sh4 sh5
  have hfin : C.2 = false := by
    rw [sh5, mh5, ph6]
  simp only [hfin, Bool.false_eq_true, if_false]
  refine ⟨?_, ?_, ?_, ?_⟩
  · simp [sh2, mh2, ph2, hS2p]
  · simp [sh3, mh3, ph3, hS2s]
  · simp [sh4, mh4, ph4, hS2e]
  · simp [sh1, mh1, ph1, hS2fs]

theorem processFile_running_mono (s : WState)
    (h : (processFile env opts total i f s).running = true) : s.running = true := by
  simp only [processFile, emitEv_fs] at h
  by_cases hc : (opts.do_multi_ico && s.fs.contains (OutPath.packedIco f.stem)) = true
  · rw [hc] at h
    simp only [if_true] at h
    simpa using h
  · simp only [Bool.not_eq_true] at hc
    rw [hc] at h
    simp only [Bool.false_eq_true, if_false] at h
    rw [loadImage_eta] at h
    rcases hd : decodeOf env f with img | _ | _ <;> rw [hd] at h <;> dsimp only at h
    · set S0 := emitEv (Event.statusUpdate (Msg.processingFile (i + 1) total f.stem))
          (emitEv (Event.fileProgress (i + 1) total)
            (emitEv (Event.progress ((i + 1) * 100 / total)) s)) with hS0
      set S2 := (loadImage env f S0).2 with hS2
      set A := pngStage env opts f.stem img S2 with hA
      set B := multiIcoStage env opts f.stem A.1 A.2.2 with hB
      set C := singleIcoStage env opts f.stem A.2.1 B.1 B.2 with hC
      have hCrun : C.1.running = true := by
        rcases hcc : C.2 with _ | _ <;> rw [hcc] at h <;> simpa using h
      have hBrun : B.1.running = true := by
        rw [hC] at hCrun
        exact singleIcoStage_running_mono env opts f.stem A.2.1 B.1 B.2 hCrun
      have hArun : A.1.running = true := by
        rw [hB] at hBrun
        exact multiIcoStage_running_mono env opts f.stem A.1 A.2.2 hBrun
      have hS2run : S2.running = true := by
        rw [hA] at hArun
        exact pngStage_running_mono env opts f.stem img S2 hArun
      rw [hS2, hS0] at hS2run
      simpa using hS2run
    · simpa using h
    · simpa using h

theorem singleIcoStage_fs_nopng (stem2 : String) (paths : List Nat) (s : WState)
    (stepErr : Bool) (hns : NoStop env) (hrun : s.running = true)
    (hpng : opts.do_png = false) :
    (singleIcoStage env opts stem2 paths s stepErr).1.fs = s.fs := by
  simp only [singleIcoStage]
  by_cases hsingle : opts.do_single_ico = true
  · simp [hsingle, hrun, hns s.checks, hpng]
  · simp only [Bool.not_eq_true] at hsingle
    simp [hsingle]

theorem processFile_nopng_fs (hns : NoStop env) (s : WState) (img : Bitmap)
    (hrun : s.running = true)
    (hskip : (opts.do_multi_ico && s.fs.contains (OutPath.packedIco f.stem)) = false)
    (hdec : decodeOf env f = LoadResult.ok img)
    (hpng : opts.do_png = false) :
    (processFile env opts total i f s).fs
      = (if (opts.do_multi_ico && env.multiIcoSaveOk f.stem) = true then
          OutPath.packedIco f.stem :: s.fs else s.fs) := by
  simp only [processFile, emitEv_fs]
  rw [hskip]
  simp only [Bool.false_eq_true, if_false]
  rw [loadImage_eta, hdec]
  dsimp only
  set S0 := emitEv (Event.statusUpdate (Msg.processingFile (i + 1) total f.stem))
      (emitEv (Event.fileProgress (i + 1) total)
        (emitEv (Event.progress ((i + 1) * 100 / total)) s)) with hS0
  set S2 := (loadImage env f S0).2 with hS2
  set A := pngStage env opts f.stem img S2 with hA
  set B := multiIcoStage env opts f.stem A.1 A.2.2 with hB
  set C := singleIcoStage env opts f.stem A.2.1 B.1 B.2 with hC
  have hS2run : S2.running = true := by rw [hS2, hS0]; simp [hrun]
  have hS2fs : S2.fs = s.fs := by rw [hS2, hS0]; simp
  have hAeq : A = (S2, [], false) := by
    rw [hA]
    simp [pngStage, hpng]
  obtain ⟨ma1, ma2, ma3⟩ := multiIcoStage_spec env opts f.stem hns A.1 A.2.2
    (by rw [hAeq]; exact hS2run)
  rw [← hB] at ma1 ma2 ma3
  have hCfs : C.1.fs = B.1.fs := by
    rw [hC]
    exact singleIcoStage_fs_nopng env opts f.stem A.2.1 B.1 B.2 hns ma3 hpng
  have hfs : C.1.fs = (if (opts.do_multi_ico && env.multiIcoSaveOk f.stem) = true then
      OutPath.packedIco f.stem :: s.fs else s.fs) := by
    rw [hCfs, ma2, hAeq]
    split <;> rw [hS2fs]
  split <;> simp [hfs]

theorem processFile_running_nostop (hns : NoStop env) (s : WState)
    (hrun : s.running = true) :
    (processFile env opts total i f s).running = true := by
  by_cases hskip : (opts.do_multi_ico && s.fs.contains (OutPath.packedIco f.stem)) = true
  · rw [(processFile_skip env opts total i f s hskip).2.2.2.2.1]
    exact hrun
  · simp only [Bool.not_eq_true] at hskip
    rcases hd : decodeOf env f with img | _ | _
    · exact (processFile_ok_spec env opts total i f hns s img hrun hskip hd).2.2.2.2.2.2
    · rw [(processFile_failed env opts total i f s hskip hd).2.2.2.2.1]
      exact hrun
    · rw [(processFile_unsupported env opts total i f s hd).2.2.2.2.1]
      exact hrun

end ProcessFileLemmas

section RunLemmas

variable (env : Env) (opts : Options) (total : Nat)

theorem runLoop_sum :
    ∀ (files : List InputFile) (i : Nat) (s : WState),
    (runLoop env opts total files i s).processed + (runLoop env opts total files i s).skipped
      + (runLoop env opts total files i s).errored
    = s.processed + s.skipped + s.errored + enteredCount env opts total files i s := by
  intro files
  induction files with
  | nil => intro i s; simp [runLoop, enteredCount]
  | cons f rest ih =>
    intro i s
    simp only [runLoop, enteredCount]
    by_cases hr : (readRunning env s).1 = true
    · simp only [hr, if_true]
      rw [ih]
      rw [processFile_sum]
      simp
      omega
    · simp only [Bool.not_eq_true] at hr
      simp at hr
      have hcond : ¬(s.running = true ∧ env.stopReq s.checks = false) := by
        rintro ⟨h1, h2⟩
        rw [hr h1] at h2
        exact Bool.noConfusion h2
      simp [hcond]

theorem runLoop_running_mono :
    ∀ (files : List InputFile) (i : Nat) (s : WState),
    (runLoop env opts total files i s).running = true → s.running = true := by
  intro files
  induction files with
  | nil => intro i s h; exact h
  | cons f rest ih =>
    intro i s h
    simp only [runLoop] at h
    by_cases hr : (readRunning env s).1 = true
    · rw [hr] at h
      simp only [if_true] at h
      have h2 := processFile_running_mono env opts total i f _ (ih _ _ h)
      simp at h2
      exact h2.1
    · simp only [Bool.not_eq_true] at hr
      rw [hr] at h
      simp only [Bool.false_eq_true, if_false] at h
      simp at h
      exact h.1

theorem runLoop_break (f : InputFile) (rest : List InputFile) (i : Nat) (s : WState)
    (h : s.running = false) :
    runLoop env opts total (f :: rest) i s
      = emitEv (Event.statusUpdate Msg.conversionCancelled) (readRunning env s).2 := by
  simp [runLoop, h]

theorem enteredCount_nostop (hns : NoStop env) :
    ∀ (files : List InputFile) (i : Nat) (s : WState), s.running = true →
    enteredCount env opts total files i s = files.length := by
  intro files
  induction files with
  | nil => intro i s _; rfl
  | cons f rest ih =>
    intro i s hrun
    simp only [enteredCount]
    have hr : (readRunning env s).1 = true := by simp [hrun, hns s.checks]
    simp only [hr, if_true]
    rw [ih _ _ (processFile_running_nostop env opts total i f hns _ (by simp [hrun, hns s.checks]))]
    simp [List.length_cons]
    omega

theorem runLoop_running_nostop (hns : NoStop env) :
    ∀ (files : List InputFile) (i : Nat) (s : WState), s.running = true →
    (runLoop env opts total files i s).running = true := by
  intro files
  induction files with
  | nil => intro i s h; exact h
  | cons f rest ih =>
    intro i s hrun
    simp only [runLoop]
    have hr : (readRunning env s).1 = true := by simp [hrun, hns s.checks]
    simp only [hr, if_true]
    exact ih _ _ (processFile_running_nostop env opts total i f hns _ (by simp [hrun, hns s.checks]))

theorem getLast_append_one {α : Type} (l : List α) (a : α) :
    (l ++ [a]).getLast? = some a := by
  induction l with
  | nil => rfl
  | cons x xs ih =>
    rw [List.cons_append]
    rcases hxs : xs ++ [a] with _ | ⟨y, tl⟩
    · exact absurd hxs (by simp)
    · rw [hxs] at ih
      rw [List.getLast?_cons_cons]
      exact ih

theorem run_conversion_counters (files : List InputFile) (initFs : List OutPath)
    (hne : files ≠ []) (hsetup : setupFails env opts = false) :
    ((run_conversion env opts files initFs).processed
        = (runLoop env opts files.length files 0 (initState initFs)).processed)
    ∧ ((run_conversion env opts files initFs).skipped
        = (runLoop env opts files.length files 0 (initState initFs)).skipped)
    ∧ ((run_conversion env opts files initFs).errored
        = (runLoop env opts files.length files 0 (initState initFs)).errored)
    ∧ ((run_conversion env opts files initFs).fs
        = (runLoop env opts files.length files 0 (initState initFs)).fs) := by
  simp only [run_conversion]
  rw [if_neg (by simpa using hne), hsetup]
  simp only [Bool.false_eq_true, if_false]
  split <;> simp

theorem runLoop_singleton (env : Env) (opts : Options) (total i : Nat) (f : InputFile)
    (s : WState) (hrun : s.running = true) (hns : NoStop env) :
    runLoop env opts total [f] i s
      = processFile env opts total i f (readRunning env s).2 := by
  simp [runLoop, hrun, hns s.checks]

theorem emit_finished_last (s : WState) (a b c : Nat) :
    ∃ p k e, (emitEv (Event.finished a b c) s).events.getLast?
      = some (Event.finished p k e) :=
  ⟨a, b, c, by simp [getLast_append_one, emitEv]⟩

theorem run_last_event (files : List InputFile) (initFs : List OutPath) :
    ∃ p k e, (run_conversion env opts files initFs).events.getLast?
      = some (Event.finished p k e) := by
  simp only [run_conversion]
  split
  · exact emit_finished_last _ _ _ _
  · split
    · exact emit_finished_last _ _ _ _
    · exact emit_finished_last _ _ _ _

theorem run_last_event_counters (files : List InputFile) (initFs : List OutPath)
    (hne : files ≠ []) (hsetup : setupFails env opts = false) :
    (run_conversion env opts files initFs).events.getLast?
      = some (Event.finished (run_conversion env opts files initFs).processed
          (run_conversion env opts files initFs).skipped
          (run_conversion env opts files initFs).errored) := by
  simp only [run_conversion]
  rw [if_neg (by simpa using hne), hsetup]
  simp only [Bool.false_eq_true, if_false]
  split <;> simp [getLast_append_one, emitEv]

end RunLemmas

section MoreProcessLemmas

variable (env : Env) (opts : Options) (total i : Nat) (f : InputFile)

theorem processFile_decodeok_skipped (s : WState) (img : Bitmap)
    (hskip : (opts.do_multi_ico && s.fs.contains (OutPath.packedIco f.stem)) = false)
    (hdec : decodeOf env f = LoadResult.ok img) :
    (processFile env opts total i f s).skipped = s.skipped := by
  simp only [processFile, emitEv_fs]
  rw [hskip]
  simp only [Bool.false_eq_true, if_false]
  rw [loadImage_eta, hdec]
  dsimp only
  set S0 := emitEv (Event.statusUpdate (Msg.processingFile (i + 1) total f.stem))
      (emitEv (Event.fileProgress (i + 1) total)
        (emitEv (Event.progress ((i + 1) * 100 / total)) s)) with hS0
  set S2 := (loadImage env f S0).2 with hS2
  set A := pngStage env opts f.stem img S2 with hA
  set B := multiIcoStage env opts f.stem A.1 A.2.2 with hB
  set C := singleIcoStage env opts f.stem A.2.1 B.1 B.2 with hC
  have hS2s : S2.skipped = s.skipped := by rw [hS2, hS0]; simp
  obtain ⟨pc1, pc2, pc3⟩ := pngStage_counters env opts f.stem img S2
  rw [← hA] at pc1 pc2 pc3
  obtain ⟨mc1, mc2, mc3⟩ := multiIcoStage_counters env opts f.stem A.1 A.2.2
  rw [← hB] at mc1 mc2 mc3
  obtain ⟨sc1, sc2, sc3⟩ := singleIcoStage_counters env opts f.stem A.2.1 B.1 B.2
  rw [← hC] at sc1 sc2 sc3
  by_cases hfin : C.2 = true
  · simp [hfin, sc2, mc2, pc2, hS2s]
  · simp [hfin, sc2, mc2, pc2, hS2s]

theorem decodeOf_svg_unavailable (hsvg : env.svgAvailable = false)
    (hext : lowerExt f.ext = ".svg") : decodeOf env f = LoadResult.failed := by
  simp [decodeOf, hext, hsvg]

theorem decodeOf_unrecognized (hraster : lowerExt f.ext ∉ rasterExtensions)
    (hsvg : lowerExt f.ext ≠ ".svg") : decodeOf env f = LoadResult.unsupported := by
  simp [decodeOf, hsvg, hraster]

end MoreProcessLemmas

/-- A benign external world: all decodes and saves succeed, cairosvg absent,
no stop request ever arrives. -/
def envA : Env :=
  { svgAvailable := false
    svgDecode := fun _ => none
    rasterDecode := fun _ => some ⟨8, 8⟩
    thumbnail := fun b z => ⟨min b.width z, min b.height z⟩
    pngSaveOk := fun _ _ => true
    multiIcoSaveOk := fun _ => true
    singleIcoSaveOk := fun _ _ => true
    mkResizedOk := true
    mkIcoOk := true
    stopReq := fun _ => false }

/-- Like `envA`, but a stop request arrives before the second flag read
(after the loop-top check of the first file). -/
def envStop : Env := { envA with stopReq := fun n => decide (1 ≤ n) }

/-- Like `envA`, but a stop request is pending from the very start. -/
def envHalt : Env := { envA with stopReq := fun _ => true }

/-- Like `envA`, but creating the `ico/` output folder fails. -/
def envBad : Env := { envA with mkIcoOk := false }

/-- Like `envA`, but saving the 32-pixel PNG rendition fails. -/
def envPng32 : Env := { envA with pngSaveOk := fun _ z => decide (z ≠ 32) }

def fileA : InputFile := ⟨"a", ".png"⟩

def fileGif : InputFile := ⟨"c", ".gif"⟩

def fileSvg : InputFile := ⟨"v", ".svg"⟩

def optsAll : Options := ⟨true, true, true⟩

def optsMulti : Options := ⟨false, true, false⟩

def optsPng : Options := ⟨true, false, false⟩

def optsSingleNoPng : Options := ⟨false, true, true⟩

/-- Claim C1: for every non-empty input file list and option set, when the
output-folder setup succeeds, the run emits its terminal RunResult event
carrying the three final counters, their sum equals the number of loop
iterations entered before cancellation was observed, and if cancellation is
never requested the sum equals the total number of input files — files never
visited contribute to no counter. -/
theorem claim_C1 (env : Env) (opts : Options) (files : List InputFile)
    (initFs : List OutPath) (hne : files ≠ [])
    (hsetup : setupFails env opts = false) :
    ((run_conversion env opts files initFs).events.getLast?
        = some (Event.finished (run_conversion env opts files initFs).processed
            (run_conversion env opts files initFs).skipped
            (run_conversion env opts files initFs).errored))
    ∧ ((run_conversion env opts files initFs).processed
        + (run_conversion env opts files initFs).skipped
        + (run_conversion env opts files initFs).errored
        = enteredCount env opts files.length files 0 (initState initFs))
    ∧ (NoStop env →
        (run_conversion env opts files initFs).processed
        + (run_conversion env opts files initFs).skipped
        + (run_conversion env opts files initFs).errored
        = files.length) := by
  obtain ⟨h1, h2, h3, _⟩ := run_conversion_counters env opts files initFs hne hsetup
  refine ⟨run_last_event_counters env opts files initFs hne hsetup, ?_, ?_⟩
  · rw [h1, h2, h3, runLoop_sum]
    simp [initState]
  · intro hns
    rw [h1, h2, h3, runLoop_sum,
      enteredCount_nostop env opts files.length hns files 0 _ (by simp [initState])]
    simp [initState]

/-- Claim C3: if creating the required output subdirectories fails and the
file list is non-empty, the run emits exactly the fatal event followed by
the terminal RunResult event with counters (0, 0, len(files)), and
terminates without visiting any file or writing any output. -/
theorem claim_C3 (env : Env) (opts : Options) (files : List InputFile)
    (initFs : List OutPath) (hne : files ≠ [])
    (hsetup : setupFails env opts = true) :
    ((run_conversion env opts files initFs).events
        = [Event.fatalError Msg.couldNotCreateFolders,
           Event.finished 0 0 files.length])
    ∧ ((run_conversion env opts files initFs).fs = initFs) := by
  simp only [run_conversion]
  rw [if_neg (by simpa using hne), hsetup]
  simp [emitEv, initState]

/-- Claim C4: for a file that decodes successfully in an uncancelled run,
the outcome is Processed exactly when no step of the generate-PNG,
generate-packed-icon and generate-single-icons stages raised the step-level
error flag (`stepErrorOccurred`), and Errored otherwise; a failure in one
stage aborts neither the remaining PNG sizes nor the remaining stages:
every size with a non-degenerate resample and a succeeding save is written,
and the packed icon is written whenever its own save succeeds. -/
theorem claim_C4 (env : Env) (opts : Options) (total i : Nat) (f : InputFile)
    (img : Bitmap) (s : WState) (hns : NoStop env) (hrun : s.running = true)
    (hskip : (opts.do_multi_ico && s.fs.contains (OutPath.packedIco f.stem)) = false)
    (hdec : decodeOf env f = LoadResult.ok img) :
    ((processFile env opts total i f s).processed
        = s.processed + (if stepErrorOccurred env opts f.stem img = true then 0 else 1))
    ∧ ((processFile env opts total i f s).errored
        = s.errored + (if stepErrorOccurred env opts f.stem img = true then 1 else 0))
    ∧ ((processFile env opts total i f s).skipped = s.skipped)
    ∧ (opts.do_png = true → ∀ z ∈ PNG_ICON_SIZES,
        dimsPositive (env.thumbnail img z) = true → env.pngSaveOk f.stem z = true →
        OutPath.resizedPng f.stem z ∈ (processFile env opts total i f s).fs)
    ∧ ((opts.do_multi_ico && env.multiIcoSaveOk f.stem) = true →
        OutPath.packedIco f.stem ∈ (processFile env opts total i f s).fs) := by
  obtain ⟨h1, h2, h3, _, h5, h6, _⟩ :=
    processFile_ok_spec env opts total i f hns s img hrun hskip hdec
  exact ⟨h1, h2, h3, h5, h6⟩

/-- Claim C5: cancellation is monotonic and progress-bounding — a flag read
that observes a stop stores `false` back into the flag; the file loop never
turns the flag back to `true`; once the flag is `false` at a loop head the
loop adds only the cancelled status to the trace, so no progress event for
any later file is emitted; and a terminal RunResult event is the last event
of every run. -/
theorem claim_C5 :
    (∀ (env : Env) (s : WState), (readRunning env s).1 = false →
        (readRunning env s).2.running = false)
    ∧ (∀ (env : Env) (opts : Options) (total : Nat) (files : List InputFile)
        (i : Nat) (s : WState),
        (runLoop env opts total files i s).running = true → s.running = true)
    ∧ (∀ (env : Env) (opts : Options) (total : Nat) (f : InputFile)
        (rest : List InputFile) (i : Nat) (s : WState), s.running = false →
        (runLoop env opts total (f :: rest) i s).events
          = s.events ++ [Event.statusUpdate Msg.conversionCancelled])
    ∧ (∀ (env : Env) (opts : Options) (files : List InputFile) (initFs : List OutPath),
        ∃ p k e, (run_conversion env opts files initFs).events.getLast?
          = some (Event.finished p k e)) := by
  refine ⟨?_, ?_, ?_, ?_⟩
  · intro env s h
    simpa using h
  · intro env opts total files i s h
    exact runLoop_running_mono env opts total files i s h
  · intro env opts total f rest i s h
    rw [runLoop_break env opts total f rest i s h]
    simp
  · intro env opts files initFs
    exact run_last_event env opts files initFs

/-- Claim C7: when the vector rasterizer collaborator is absent, an `.svg`
input takes the decode-failure path; a run over a single such file with a
fresh output root yields RunResult {0, 0, 1} and writes no output. -/
theorem claim_C7 (env : Env) (opts : Options) (f : InputFile)
    (hsvg : env.svgAvailable = false) (hext : lowerExt f.ext = ".svg")
    (hns : NoStop env) (hsetup : setupFails env opts = false) :
    ((run_conversion env opts [f] []).processed = 0)
    ∧ ((run_conversion env opts [f] []).skipped = 0)
    ∧ ((run_conversion env opts [f] []).errored = 1)
    ∧ ((run_conversion env opts [f] []).fs = []) := by
  obtain ⟨h1, h2, h3, h4⟩ := run_conversion_counters env opts [f] [] (by simp) hsetup
  have hdec := decodeOf_svg_unavailable env f hsvg hext
  rw [runLoop_singleton env opts ([f] : List InputFile).length 0 f (initState [])
    (by simp [initState]) hns] at h1 h2 h3 h4
  set SI := (readRunning env (initState ([] : List OutPath))).2 with hSI
  have hskip : (opts.do_multi_ico && SI.fs.contains (OutPath.packedIco f.stem)) = false := by
    rw [hSI]
    simp [initState]
  obtain ⟨f1, f2, f3, f4, _, _⟩ :=
    processFile_failed env opts ([f] : List InputFile).length 0 f SI hskip hdec
  refine ⟨?_, ?_, ?_, ?_⟩
  · rw [h1, f2, hSI]; simp [initState]
  · rw [h2, f3, hSI]; simp [initState]
  · rw [h3, f1, hSI]; simp [initState]
  · rw [h4, f4, hSI]; simp [initState]

/-- Claim C8: a file whose lowercased extension is neither a recognized
raster extension nor `.svg` (for instance `.gif`) is recorded Skipped, not
Errored, and no decode or generation stage runs for it — its counters move
only the skipped bucket and the filesystem is untouched. -/
theorem claim_C8 (env : Env) (opts : Options) (total i : Nat) (f : InputFile)
    (s : WState)
    (hraster : rasterExtensions.contains (lowerExt f.ext) = false)
    (hsvg : lowerExt f.ext ≠ ".svg") :
    ((processFile env opts total i f s).skipped = s.skipped + 1)
    ∧ ((processFile env opts total i f s).processed = s.processed)
    ∧ ((processFile env opts total i f s).errored = s.errored)
    ∧ ((processFile env opts total i f s).fs = s.fs) := by
  have hdec : decodeOf env f = LoadResult.unsupported :=
    decodeOf_unrecognized env f (by simpa using hraster) hsvg
  obtain ⟨a1, a2, a3, a4, _, _⟩ := processFile_unsupported env opts total i f s hdec
  exact ⟨a1, a2, a3, a4⟩

/-- Claim C9: with generate_single_icons selected but generate_resized_pngs
deselected, the single-icons stage is a warning-only no-op in an uncancelled
run: it emits the stage status plus the warning, writes nothing, and leaves
the step-level error flag unchanged; at file level the only possible write
for a decoded file is the packed icon. -/
theorem claim_C9 (env : Env) (opts : Options) (total i : Nat) (f : InputFile)
    (paths : List Nat) (s : WState) (stepErr : Bool)
    (hns : NoStop env) (hrun : s.running = true)
    (hsingle : opts.do_single_ico = true) (hpng : opts.do_png = false) :
    (((singleIcoStage env opts f.stem paths s stepErr).1.fs = s.fs)
      ∧ ((singleIcoStage env opts f.stem paths s stepErr).2 = stepErr)
      ∧ ((singleIcoStage env opts f.stem paths s stepErr).1.events
          = s.events ++ [Event.statusUpdate (Msg.generatingSingleIcos f.stem),
              Event.statusUpdate (Msg.warnSingleIcoNoPngOption f.stem)]))
    ∧ (∀ img : Bitmap,
        (opts.do_multi_ico && s.fs.contains (OutPath.packedIco f.stem)) = false →
        decodeOf env f = LoadResult.ok img →
        (processFile env opts total i f s).fs
          = (if (opts.do_multi_ico && env.multiIcoSaveOk f.stem) = true then
              OutPath.packedIco f.stem :: s.fs else s.fs)) := by
  constructor
  · simp only [singleIcoStage]
    simp [hsingle, hrun, hns s.checks, hpng, emitEv]
  · intro img hskip hdec
    exact processFile_nopng_fs env opts total i f hns s img hrun hskip hdec hpng

/-- Claim C10: if cancellation is requested after a file's bitmap decoded
successfully but before any generation stage's flag read, every stage is
skipped and no output is written for the file, yet the file is recorded
Processed — the step-level error flag was never raised — incrementing the
processed counter. -/
theorem claim_C10 (env : Env) (opts : Options) (total i : Nat) (f : InputFile)
    (img : Bitmap) (s : WState)
    (hrun : s.running = true)
    (hstop : ∀ n, s.checks ≤ n → env.stopReq n = true)
    (hskip : (opts.do_multi_ico && s.fs.contains (OutPath.packedIco f.stem)) = false)
    (hdec : decodeOf env f = LoadResult.ok img) :
    ((processFile env opts total i f s).processed = s.processed + 1)
    ∧ ((processFile env opts total i f s).skipped = s.skipped)
    ∧ ((processFile env opts total i f s).errored = s.errored)
    ∧ ((processFile env opts total i f s).fs = s.fs) :=
  processFile_ok_halted env opts total i f s img hrun hstop hskip hdec

/-- Claim C2 counterexample: with packed-icon generation selected, a stop
request arriving after the first file's decode makes the first run record
the file as Processed without writing its packed icon, so a second
(uncancelled) run over the same output root decodes and processes it again
instead of skipping it — refuting the claim as stated for a
previously-succeeded file. -/
theorem claim_C2_counterexample :
    ((run_conversion envStop optsMulti [fileA] []).processed = 1)
    ∧ ¬(((run_conversion envA optsMulti [fileA]
          (run_conversion envStop optsMulti [fileA] []).fs).processed = 0)
        ∧ ((run_conversion envA optsMulti [fileA]
          (run_conversion envStop optsMulti [fileA] []).fs).skipped = 1)
        ∧ ((run_conversion envA optsMulti [fileA]
          (run_conversion envStop optsMulti [fileA] []).fs).errored = 0)) := by
  decide

/-- Claim C2 (amended): a file whose packed icon ico/{stem}.ico already
exists is recorded Skipped before decoding, with no stage run and no write;
hence, with generate_packed_icon selected and cancellation never requested
in either run, running twice over the same output root counts a single
previously-succeeded file as Skipped in the second run, whose RunResult is
{0, 1, 0} with no new bytes written. -/
theorem claim_C2 :
    (∀ (env : Env) (opts : Options) (total i : Nat) (f : InputFile) (s : WState),
      opts.do_multi_ico = true →
      s.fs.contains (OutPath.packedIco f.stem) = true →
      ((processFile env opts total i f s).skipped = s.skipped + 1)
      ∧ ((processFile env opts total i f s).processed = s.processed)
      ∧ ((processFile env opts total i f s).errored = s.errored)
      ∧ ((processFile env opts total i f s).fs = s.fs))
    ∧ (∀ (env1 env2 : Env) (opts : Options) (f : InputFile) (fs0 : List OutPath),
      NoStop env1 → NoStop env2 → opts.do_multi_ico = true →
      setupFails env1 opts = false → setupFails env2 opts = false →
      (run_conversion env1 opts [f] fs0).processed = 1 →
      ((run_conversion env2 opts [f] (run_conversion env1 opts [f] fs0).fs).processed = 0)
      ∧ ((run_conversion env2 opts [f] (run_conversion env1 opts [f] fs0).fs).skipped = 1)
      ∧ ((run_conversion env2 opts [f] (run_conversion env1 opts [f] fs0).fs).errored = 0)
      ∧ ((run_conversion env2 opts [f] (run_conversion env1 opts [f] fs0).fs).fs
          = (run_conversion env1 opts [f] fs0).fs)) := by
  constructor
  · intro env opts total i f s hm hcont
    have hskip : (opts.do_multi_ico && s.fs.contains (OutPath.packedIco f.stem)) = true := by
      rw [hm, hcont]
      rfl
    obtain ⟨a1, a2, a3, a4, _, _, _⟩ := processFile_skip env opts total i f s hskip
    exact ⟨a1, a2, a3, a4⟩
  · intro env1 env2 opts f fs0 hns1 hns2 hm hsetup1 hsetup2 hproc
    obtain ⟨h1, h2, h3, h4⟩ := run_conversion_counters env1 opts [f] fs0 (by simp) hsetup1
    rw [runLoop_singleton env1 opts ([f] : List InputFile).length 0 f (initState fs0)
      (by simp [initState]) hns1] at h1 h2 h3 h4
    set SI := (readRunning env1 (initState fs0)).2 with hSI
    have hSIrun : SI.running = true := by rw [hSI]; simp [initState, hns1 0]
    have hSIp : SI.processed = 0 := by rw [hSI]; simp [initState]
    have hpack : OutPath.packedIco f.stem ∈ (run_conversion env1 opts [f] fs0).fs := by
      rw [h4]
      by_cases hskip : (opts.do_multi_ico && SI.fs.contains (OutPath.packedIco f.stem)) = true
      · exfalso
        obtain ⟨_, a2, _, _, _, _, _⟩ :=
          processFile_skip env1 opts ([f] : List InputFile).length 0 f SI hskip
        rw [h1, a2, hSIp] at hproc
        exact absurd hproc (by decide)
      · simp only [Bool.not_eq_true] at hskip
        rcases hd : decodeOf env1 f with img | _ | _
        · obtain ⟨b1, _, _, _, _, b6, _⟩ :=
            processFile_ok_spec env1 opts ([f] : List InputFile).length 0 f hns1 SI img
              hSIrun hskip hd
          rw [h1, b1, hSIp] at hproc
          by_cases hfin : stepErrorOccurred env1 opts f.stem img = true
          · exfalso
            rw [hfin] at hproc
            simp at hproc
          · have hfin2 : stepErrorOccurred env1 opts f.stem img = false := by
              simpa using hfin
            have hok : env1.multiIcoSaveOk f.stem = true := by
              by_cases hok2 : env1.multiIcoSaveOk f.stem = true
              · exact hok2
              · exfalso
                simp only [Bool.not_eq_true] at hok2
                simp [stepErrorOccurred, hm, hok2] at hfin2
            apply b6
            rw [hm, hok]
            rfl
        · exfalso
          obtain ⟨_, c2, _, _, _, _⟩ :=
            processFile_failed env1 opts ([f] : List InputFile).length 0 f SI hskip hd
          rw [h1, c2, hSIp] at hproc
          exact absurd hproc (by decide)
        · exfalso
          obtain ⟨_, c2, _, _, _, _⟩ :=
            processFile_unsupported env1 opts ([f] : List InputFile).length 0 f SI hd
          rw [h1, c2, hSIp] at hproc
          exact absurd hproc (by decide)
    obtain ⟨g1, g2, g3, g4⟩ := run_conversion_counters env2 opts [f]
      (run_conversion env1 opts [f] fs0).fs (by simp) hsetup2
    rw [runLoop_singleton env2 opts ([f] : List InputFile).length 0 f
      (initState (run_conversion env1 opts [f] fs0).fs) (by simp [initState]) hns2]
      at g1 g2 g3 g4
    set SJ := (readRunning env2 (initState (run_conversion env1 opts [f] fs0).fs)).2 with hSJ
    have hSJfs : SJ.fs = (run_conversion env1 opts [f] fs0).fs := by
      rw [hSJ]; simp [initState]
    have hskip2 : (opts.do_multi_ico && SJ.fs.contains (OutPath.packedIco f.stem)) = true := by
      rw [hm, hSJfs]
      simp [hpack]
    obtain ⟨k1, k2, k3, k4, _, _, _⟩ :=
      processFile_skip env2 opts ([f] : List InputFile).length 0 f SJ hskip2
    refine ⟨?_, ?_, ?_, ?_⟩
    · rw [g1, k2, hSJ]; simp [initState]
    · rw [g2, k1, hSJ]; simp [initState]
    · rw [g3, k3, hSJ]; simp [initState]
    · rw [g4, k4, hSJfs]

/-- Claim C6 counterexample: with generate_packed_icon=false, a run over a
single decodable file whose ico/{stem}.ico already exists records it as
Processed, not Skipped — refuting the claim that the skip check applies when
packed-icon generation is disabled. -/
theorem claim_C6_counterexample :
    ((run_conversion envA optsPng [fileA] [OutPath.packedIco "a"]).skipped = 0)
    ∧ ((run_conversion envA optsPng [fileA] [OutPath.packedIco "a"]).processed = 1) := by
  decide

/-- Claim C6 (amended): the skip check inspects only the existence of the
packed-icon path, but it is gated on the current run's packed-icon option:
with generate_packed_icon=false a decodable file is never recorded Skipped
even when ico/{stem}.ico exists, while with generate_packed_icon=true the
file is Skipped exactly on that path's existence, with the filesystem
untouched. -/
theorem claim_C6 :
    (∀ (env : Env) (opts : Options) (total i : Nat) (f : InputFile)
      (img : Bitmap) (s : WState),
      opts.do_multi_ico = false →
      decodeOf env f = LoadResult.ok img →
      (processFile env opts total i f s).skipped = s.skipped)
    ∧ (∀ (env : Env) (opts : Options) (total i : Nat) (f : InputFile) (s : WState),
      opts.do_multi_ico = true →
      s.fs.contains (OutPath.packedIco f.stem) = true →
      ((processFile env opts total i f s).skipped = s.skipped + 1)
      ∧ ((processFile env opts total i f s).fs = s.fs)) := by
  constructor
  · intro env opts total i f img s hm hdec
    have hskip : (opts.do_multi_ico && s.fs.contains (OutPath.packedIco f.stem)) = false := by
      rw [hm]
      rfl
    exact processFile_decodeok_skipped env opts total i f s img hskip hdec
  · intro env opts total i f s hm hcont
    have hskip : (opts.do_multi_ico && s.fs.contains (OutPath.packedIco f.stem)) = true := by
      rw [hm, hcont]
      rfl
    obtain ⟨a1, _, _, a4, _, _, _⟩ := processFile_skip env opts total i f s hskip
    exact ⟨a1, a4⟩

theorem claim_C1_witness :
    (([fileA] : List InputFile) ≠ [])
    ∧ (setupFails envA optsAll = false)
    ∧ (((run_conversion envA optsAll [fileA] []).events.getLast?
        = some (Event.finished (run_conversion envA optsAll [fileA] []).processed
            (run_conversion envA optsAll [fileA] []).skipped
            (run_conversion envA optsAll [fileA] []).errored))
      ∧ ((run_conversion envA optsAll [fileA] []).processed
          + (run_conversion envA optsAll [fileA] []).skipped
          + (run_conversion envA optsAll [fileA] []).errored
          = enteredCount envA optsAll ([fileA] : List InputFile).length [fileA] 0 (initState []))
      ∧ (NoStop envA →
          (run_conversion envA optsAll [fileA] []).processed
          + (run_conversion envA optsAll [fileA] []).skipped
          + (run_conversion envA optsAll [fileA] []).errored
          = ([fileA] : List InputFile).length)) :=
  ⟨by decide, by decide, claim_C1 envA optsAll [fileA] [] (by decide) (by decide)⟩

theorem claim_C2_witness :
    ((optsMulti.do_multi_ico = true)
      ∧ ((initState [OutPath.packedIco "a"]).fs.contains (OutPath.packedIco fileA.stem) = true)
      ∧ ((processFile envA optsMulti 1 0 fileA (initState [OutPath.packedIco "a"])).skipped
          = (initState [OutPath.packedIco "a"]).skipped + 1))
    ∧ (NoStop envA
      ∧ (setupFails envA optsMulti = false)
      ∧ ((run_conversion envA optsMulti [fileA] []).processed = 1)
      ∧ ((run_conversion envA optsMulti [fileA]
            (run_conversion envA optsMulti [fileA] []).fs).skipped = 1)) :=
  ⟨⟨rfl, by decide,
    (claim_C2.1 envA optsMulti 1 0 fileA (initState [OutPath.packedIco "a"]) rfl (by decide)).1⟩,
   ⟨fun _ => rfl, by decide, by decide,
    (claim_C2.2 envA envA optsMulti fileA [] (fun _ => rfl) (fun _ => rfl) rfl (by decide)
      (by decide) (by decide)).2.1⟩⟩

theorem claim_C3_witness :
    (([fileA] : List InputFile) ≠ [])
    ∧ (setupFails envBad optsAll = true)
    ∧ (((run_conversion envBad optsAll [fileA] []).events
        = [Event.fatalError Msg.couldNotCreateFolders,
           Event.finished 0 0 ([fileA] : List InputFile).length])
      ∧ ((run_conversion envBad optsAll [fileA] []).fs = [])) :=
  ⟨by decide, by decide, claim_C3 envBad optsAll [fileA] [] (by decide) (by decide)⟩

theorem claim_C4_witness :
    NoStop envPng32
    ∧ ((initState ([] : List OutPath)).running = true)
    ∧ ((optsAll.do_multi_ico
        && (initState ([] : List OutPath)).fs.contains (OutPath.packedIco fileA.stem)) = false)
    ∧ (decodeOf envPng32 fileA = LoadResult.ok ⟨8, 8⟩)
    ∧ (((processFile envPng32 optsAll 1 0 fileA (initState [])).processed
        = (initState ([] : List OutPath)).processed
          + (if stepErrorOccurred envPng32 optsAll fileA.stem ⟨8, 8⟩ = true then 0 else 1))
      ∧ ((processFile envPng32 optsAll 1 0 fileA (initState [])).errored
        = (initState ([] : List OutPath)).errored
          + (if stepErrorOccurred envPng32 optsAll fileA.stem ⟨8, 8⟩ = true then 1 else 0))
      ∧ ((processFile envPng32 optsAll 1 0 fileA (initState [])).skipped
        = (initState ([] : List OutPath)).skipped)
      ∧ (optsAll.do_png = true → ∀ z ∈ PNG_ICON_SIZES,
          dimsPositive (envPng32.thumbnail ⟨8, 8⟩ z) = true →
          envPng32.pngSaveOk fileA.stem z = true →
          OutPath.resizedPng fileA.stem z ∈ (processFile envPng32 optsAll 1 0 fileA (initState [])).fs)
      ∧ ((optsAll.do_multi_ico && envPng32.multiIcoSaveOk fileA.stem) = true →
          OutPath.packedIco fileA.stem ∈ (processFile envPng32 optsAll 1 0 fileA (initState [])).fs)) :=
  ⟨fun _ => rfl, rfl, by decide, by decide,
   claim_C4 envPng32 optsAll 1 0 fileA ⟨8, 8⟩ (initState []) (fun _ => rfl) rfl
     (by decide) (by decide)⟩

theorem claim_C5_witness :
    ((readRunning envHalt (initState [])).1 = false
      ∧ (readRunning envHalt (initState [])).2.running = false)
    ∧ (((runLoop envA optsAll 1 [fileA] 0 (initState [])).running = true)
      ∧ (initState ([] : List OutPath)).running = true)
    ∧ ((({ initState [] with running := false } : WState).running = false)
      ∧ ((runLoop envA optsAll 1 [fileA] 0 { initState [] with running := false }).events
          = ({ initState [] with running := false } : WState).events
            ++ [Event.statusUpdate Msg.conversionCancelled]))
    ∧ (∃ p k e, (run_conversion envA optsAll [fileA] []).events.getLast?
        = some (Event.finished p k e)) :=
  ⟨⟨by decide, claim_C5.1 envHalt (initState []) (by decide)⟩,
   ⟨by decide, claim_C5.2.1 envA optsAll 1 [fileA] 0 (initState []) (by decide)⟩,
   ⟨rfl, claim_C5.2.2.1 envA optsAll 1 fileA [] 0 { initState [] with running := false } rfl⟩,
   claim_C5.2.2.2 envA optsAll [fileA] []⟩

theorem claim_C6_witness :
    ((optsPng.do_multi_ico = false)
      ∧ (decodeOf envA fileA = LoadResult.ok ⟨8, 8⟩)
      ∧ ((processFile envA optsPng 1 0 fileA (initState [OutPath.packedIco "a"])).skipped
          = (initState [OutPath.packedIco "a"]).skipped))
    ∧ ((optsMulti.do_multi_ico = true)
      ∧ ((initState [OutPath.packedIco "a"]).fs.contains (OutPath.packedIco fileA.stem) = true)
      ∧ ((processFile envA optsMulti 1 0 fileA (initState [OutPath.packedIco "a"])).skipped
          = (initState [OutPath.packedIco "a"]).skipped + 1)) :=
  ⟨⟨rfl, by decide,
    claim_C6.1 envA optsPng 1 0 fileA ⟨8, 8⟩ (initState [OutPath.packedIco "a"]) rfl (by decide)⟩,
   ⟨rfl, by decide,
    (claim_C6.2 envA optsMulti 1 0 fileA (initState [OutPath.packedIco "a"]) rfl (by decide)).1⟩⟩

theorem claim_C7_witness :
    (envA.svgAvailable = false)
    ∧ (lowerExt fileSvg.ext = ".svg")
    ∧ NoStop envA
    ∧ (setupFails envA optsAll = false)
    ∧ (((run_conversion envA optsAll [fileSvg] []).processed = 0)
      ∧ ((run_conversion envA optsAll [fileSvg] []).skipped = 0)
      ∧ ((run_conversion envA optsAll [fileSvg] []).errored = 1)
      ∧ ((run_conversion envA optsAll [fileSvg] []).fs = [])) :=
  ⟨rfl, by decide, fun _ => rfl, by decide,
   claim_C7 envA optsAll fileSvg rfl (by decide) (fun _ => rfl) (by decide)⟩

theorem claim_C8_witness :
    (rasterExtensions.contains (lowerExt fileGif.ext) = false)
    ∧ (lowerExt fileGif.ext ≠ ".svg")
    ∧ (((processFile envA optsAll 1 0 fileGif (initState [])).skipped
        = (initState ([] : List OutPath)).skipped + 1)
      ∧ ((processFile envA optsAll 1 0 fileGif (initState [])).processed
        = (initState ([] : List OutPath)).processed)
      ∧ ((processFile envA optsAll 1 0 fileGif (initState [])).errored
        = (initState ([] : List OutPath)).errored)
      ∧ ((processFile envA optsAll 1 0 fileGif (initState [])).fs
        = (initState ([] : List OutPath)).fs)) :=
  ⟨by decide, by decide,
   claim_C8 envA optsAll 1 0 fileGif (initState []) (by decide) (by decide)⟩

theorem claim_C9_witness :
    NoStop envA
    ∧ ((initState ([] : List OutPath)).running = true)
    ∧ (optsSingleNoPng.do_single_ico = true)
    ∧ (optsSingleNoPng.do_png = false)
    ∧ ((((singleIcoStage envA optsSingleNoPng fileA.stem [] (initState []) false).1.fs
          = (initState ([] : List OutPath)).fs)
      ∧ ((singleIcoStage envA optsSingleNoPng fileA.stem [] (initState []) false).2 = false)
      ∧ ((singleIcoStage envA optsSingleNoPng fileA.stem [] (initState []) false).1.events
          = (initState ([] : List OutPath)).events
            ++ [Event.statusUpdate (Msg.generatingSingleIcos fileA.stem),
                Event.statusUpdate (Msg.warnSingleIcoNoPngOption fileA.stem)]))
      ∧ (∀ img : Bitmap,
          (optsSingleNoPng.do_multi_ico
            && (initState ([] : List OutPath)).fs.contains (OutPath.packedIco fileA.stem)) = false →
          decodeOf envA fileA = LoadResult.ok img →
          (processFile envA optsSingleNoPng 1 0 fileA (initState [])).fs
            = (if (optsSingleNoPng.do_multi_ico && envA.multiIcoSaveOk fileA.stem) = true then
                OutPath.packedIco fileA.stem :: (initState ([] : List OutPath)).fs
              else (initState ([] : List OutPath)).fs))) :=
  ⟨fun _ => rfl, rfl, rfl, rfl,
   claim_C9 envA optsSingleNoPng 1 0 fileA [] (initState []) false (fun _ => rfl) rfl rfl rfl⟩

theorem claim_C10_witness :
    ((initState ([] : List OutPath)).running = true)
    ∧ (∀ n, (initState ([] : List OutPath)).checks ≤ n → envHalt.stopReq n = true)
    ∧ ((optsAll.do_multi_ico
        && (initState ([] : List OutPath)).fs.contains (OutPath.packedIco fileA.stem)) = false)
    ∧ (decodeOf envHalt fileA = LoadResult.ok ⟨8, 8⟩)
    ∧ (((processFile envHalt optsAll 1 0 fileA (initState [])).processed
        = (initState ([] : List OutPath)).processed + 1)
      ∧ ((processFile envHalt optsAll 1 0 fileA (initState [])).skipped
        = (initState ([] : List OutPath)).skipped)
      ∧ ((processFile envHalt optsAll 1 0 fileA (initState [])).errored
        = (initState ([] : List OutPath)).errored)
      ∧ ((processFile envHalt optsAll 1 0 fileA (initState [])).fs
        = (initState ([] : List OutPath)).fs)) :=
  ⟨rfl, fun _ _ => rfl, by decide, by decide,
   claim_C10 envHalt optsAll 1 0 fileA ⟨8, 8⟩ (initState []) rfl (fun _ _ => rfl)
     (by decide) (by decide)⟩

end IconizePro
